import Mathlib

/-!
# MRC-SURVEY: restaurant and waiter ratings

A shallow embedding of `src/server.js` and `src/models/*.js`.

* Documents are records, collections are lists in natural (insertion) order.
* An `ObjectId` is kept as its hexadecimal text, so `x.toString()` is `x`.
* The handlers never look inside a score, so the documents are written once
  for any type `σ` of scores. `Score` is the full range of a `Number` path (a
  finite number, an infinity, or `null`); the text of a request is read into
  it with the rounding of a double. The instance `σ := Int` (`Rating`,
  `Restaurant`, `Waiter`, `Store`, `World`) is the part of it with whole-number
  scores, on which sums and quotients are exact; the aggregation of the
  restaurant page is stated there, with quotients taken in `ℚ`.
* A `Date` is the millisecond count of the instant.
* The libraries (Express, Mongoose, `fs`, `qrcode`) are modelled by the small
  primitives below; every primitive that touches the outside world records an
  `Event`, so the order of effects of a handler can be read off the log.
-/

namespace MrcSurvey

/-! ## Data model (`src/models`) -/

abbrev ObjectId := String

abbrev Date := Int

/-- RatingSchema: `rating`, `rating_by`, `date_time`. -/
structure RatingOf (σ : Type) where
  rating : σ
  rating_by : ObjectId
  date_time : Date
deriving DecidableEq, Repr

/-- RestaurantSchema: `name`, `ratings`, `qrCode`, with the document `_id`. -/
structure RestaurantOf (σ : Type) where
  _id : ObjectId
  name : String
  ratings : List (RatingOf σ)
  qrCode : String
deriving DecidableEq, Repr

/-- The userSchema: `username`, `password` (the bcrypt hash), `role`. -/
structure User where
  _id : ObjectId
  username : String
  password : String
  role : String
deriving DecidableEq, Repr

/-- WaiterSchema: `restaurant_id`, `name`, `picture`, `ratings`. -/
structure WaiterOf (σ : Type) where
  _id : ObjectId
  restaurant_id : ObjectId
  name : String
  picture : String
  ratings : List (RatingOf σ)
deriving DecidableEq, Repr

/-- The three collections of the database `rate_restaurant`. -/
structure StoreOf (σ : Type) where
  users : List User
  restaurants : List (RestaurantOf σ)
  waiters : List (WaiterOf σ)
deriving DecidableEq, Repr

/-- A rating record with a whole-number score. -/
abbrev Rating := RatingOf Int

/-- A restaurant whose scores are whole numbers. -/
abbrev Restaurant := RestaurantOf Int

/-- A waiter whose scores are whole numbers. -/
abbrev Waiter := WaiterOf Int

/-- A store whose scores are whole numbers. -/
abbrev Store := StoreOf Int

abbrev Restaurant._id (r : Restaurant) : ObjectId := RestaurantOf._id r

abbrev Waiter._id (x : Waiter) : ObjectId := WaiterOf._id x

/-- The value a `rating: Number` path holds: a finite number, an infinity, or
`null`. A NaN is not held, the schema cast refuses it; the two zeros are not
told apart. -/
inductive Score where
  | finite (q : ℚ)
  | posInf
  | negInf
  | null
deriving DecidableEq, Repr

/-! ### Doubles -/

/-- The integer nearest to `n / d`, a tie going to the even one. -/
def roundHalfEven (n d : Nat) : Nat :=
  if 2 * (n % d) < d then n / d
  else if d < 2 * (n % d) then n / d + 1
  else if (n / d) % 2 = 0 then n / d
  else n / d + 1

/-- The number of halvings that bring `n` below 2, at most `fuel` of them. -/
def halvings : Nat → Nat → Nat
  | 0, _ => 0
  | fuel + 1, n => if 2 ≤ n then halvings fuel (n / 2) + 1 else 0

/-- The binary logarithm of a positive number, rounded down. -/
def floorLog2 (n : Nat) : Nat :=
  halvings n n

/-- The binary exponent of `n / d`, for `n` and `d` positive: the `e` with
`2 ^ e ≤ n / d < 2 ^ (e + 1)`. -/
def binaryExponent (n d : Nat) : Int :=
  if d ≤ n then (floorLog2 (n / d) : Int)
  else if d = n * 2 ^ floorLog2 (d / n) then -(floorLog2 (d / n) : Int)
  else -(floorLog2 (d / n) : Int) - 1

/-- The Number a mathematical value becomes (IEEE 754 binary64, round to
nearest, ties to even): 53 significant bits, the unit in the last place never
below `2 ^ -1074`, and an infinity from `2 ^ 1024` on. -/
def roundToDouble (q : ℚ) : Score :=
  if q = 0 then .finite 0
  else
    let n := q.num.natAbs
    let d := q.den
    let p : Int := max (binaryExponent n d) (-1022) - 52
    let m : Nat :=
      if 0 ≤ p then roundHalfEven n (d * 2 ^ p.toNat)
      else roundHalfEven (n * 2 ^ (-p).toNat) d
    let value : ℚ :=
      if 0 ≤ p then ((m * 2 ^ p.toNat : Nat) : ℚ) else mkRat m (2 ^ (-p).toNat)
    if ((2 ^ 1024 : Nat) : ℚ) ≤ value then (if q < 0 then .negInf else .posInf)
    else .finite (if q < 0 then -value else value)

/-! ## Rating aggregation (`GET /restaurants/:id`, lines 407-429) -/

/-- A JavaScript value a template local can hold here: a string or a number. -/
inductive JsValue where
  | str (s : String)
  | num (n : Int)
deriving DecidableEq, Repr

/-- The function `Math.round`: the nearest integer, a half going up. -/
def mathRound (x : ℚ) : Int := ⌊x + 1 / 2⌋

/-- The loop `ratings.forEach((rating) => { totalRating += rating.rating; })`
started from `totalRating = 0`. -/
def totalRating (ratings : List Rating) : Int :=
  ratings.foldl (fun total rating => total + rating.rating) 0

/-- Lines 427-429: the restaurant's `averageRating`. -/
def restaurantAverageRating (ratings : List Rating) : JsValue :=
  if ratings.length ≠ 0 then
    .str (toString (mathRound ((totalRating ratings : ℚ) / (ratings.length : ℚ))) ++ " / 100")
  else
    .str "No ratings yet"

/-- Lines 413-415: a waiter's `average_rating`. -/
def waiterAverageRating (ratings : List Rating) : JsValue :=
  if ratings.length ≠ 0 then
    .str (toString (mathRound ((totalRating ratings : ℚ) / (ratings.length : ℚ))) ++ " / 100")
  else
    .num 0

/-! ## The outside world: database, file system, effect log -/

/-- A parsed JSON document, as `JSON.stringify` writes it and `JSON.parse` reads
it; a number is the double that `JSON.parse` read. -/
inductive JsonValue where
  | null
  | num (q : ℚ)
  | str (s : String)
  | arr (items : List JsonValue)
  | obj (fields : List (String × JsonValue))

/-- What a file holds: a JSON text (kept parsed), a QR image of some data, or an
uploaded picture. -/
inductive FileContent where
  | json (doc : JsonValue)
  | qrImage (data : String)
  | picture

/-- The file system seen from the server directory. `unlinkFaults` lists the
paths whose removal fails, with the `err.code` of the failure (a code other
than ENOENT, e.g. EACCES); removing a path that holds no file fails with
ENOENT. A QR image can be created only in a directory of `dirs`. The upload
directory is made when the server starts (lines 31-36) and the backup
directory by the backup handler, so writing there is taken to succeed. -/
structure FileSys where
  files : List (String × FileContent)
  dirs : List String
  unlinkFaults : List (String × String)

/-- The effects a handler has besides its reply, in the order they happen. -/
inductive Event where
  | flash (kind message : String)
  | consoleError (message : String)
  | unlink (path : String)
  | mkdir (path : String)
  | writeFile (path : String)
  | readFile (path : String)
  | qrToFile (path data : String)
  | save (model : String) (id : ObjectId)
  | findByIdAndDelete (model : String) (id : ObjectId)
  | insertMany (model : String) (count : Nat)
deriving DecidableEq, Repr

structure WorldOf (σ : Type) where
  store : StoreOf σ
  fs : FileSys
  log : List Event

/-- A world whose scores are whole numbers. -/
abbrev World := WorldOf Int

def WorldOf.emit {σ : Type} (w : WorldOf σ) (e : Event) : WorldOf σ :=
  { w with log := w.log ++ [e] }

/-- The call `req.flash(kind, message)`. -/
def WorldOf.flash {σ : Type} (w : WorldOf σ) (kind message : String) : WorldOf σ :=
  w.emit (.flash kind message)

/-- The call `console.error(message, ...)`. -/
def WorldOf.consoleError {σ : Type} (w : WorldOf σ) (message : String) : WorldOf σ :=
  w.emit (.consoleError message)

/-- The function `path.join`, on relative segments. -/
def pathJoin (segments : List String) : String :=
  "/".intercalate segments

/-! ### Mongoose queries -/

/-- `Model.findById(id)`: the document of the collection with that `_id`. -/
def findById {α : Type} (key : α → ObjectId) (docs : List α) (id : ObjectId) : Option α :=
  docs.find? (fun d => key d == id)

/-- `Model.findByIdAndDelete(id)` on a collection. -/
def deleteById {α : Type} (key : α → ObjectId) (docs : List α) (id : ObjectId) : List α :=
  docs.eraseP (fun d => key d == id)

/-- `doc.save()` for a document read from the collection: the stored document
with the same `_id` is replaced. -/
def replaceById {α : Type} (key : α → ObjectId) (doc : α) : List α → List α
  | [] => []
  | d :: ds => if key d == key doc then doc :: ds else d :: replaceById key doc ds

def WorldOf.saveRestaurant {σ : Type} (w : WorldOf σ) (doc : RestaurantOf σ) : WorldOf σ :=
  { w with store := { w.store with
      restaurants := replaceById RestaurantOf._id doc w.store.restaurants } }.emit
    (.save "Restaurant" doc._id)

def WorldOf.saveWaiter {σ : Type} (w : WorldOf σ) (doc : WaiterOf σ) : WorldOf σ :=
  { w with store := { w.store with
      waiters := replaceById WaiterOf._id doc w.store.waiters } }.emit
    (.save "Waiter" doc._id)

/-- `doc.save()` for a document made with `new Restaurant(...)`. -/
def WorldOf.insertRestaurant {σ : Type} (w : WorldOf σ) (doc : RestaurantOf σ) : WorldOf σ :=
  { w with store := { w.store with
      restaurants := w.store.restaurants ++ [doc] } }.emit (.save "Restaurant" doc._id)

/-- `doc.save()` for a document made with `new Waiter(...)`. -/
def WorldOf.insertWaiter {σ : Type} (w : WorldOf σ) (doc : WaiterOf σ) : WorldOf σ :=
  { w with store := { w.store with
      waiters := w.store.waiters ++ [doc] } }.emit (.save "Waiter" doc._id)

/-- `Waiter.findByIdAndDelete(id)`. -/
def WorldOf.deleteWaiter {σ : Type} (w : WorldOf σ) (id : ObjectId) : WorldOf σ :=
  { w with store := { w.store with
      waiters := deleteById WaiterOf._id w.store.waiters id } }.emit
    (.findByIdAndDelete "Waiter" id)

/-- `Restaurant.findByIdAndDelete(id)`. -/
def WorldOf.deleteRestaurant {σ : Type} (w : WorldOf σ) (id : ObjectId) : WorldOf σ :=
  { w with store := { w.store with
      restaurants := deleteById RestaurantOf._id w.store.restaurants id } }.emit
    (.findByIdAndDelete "Restaurant" id)

/-! ### File operations -/

def FileSys.lookup (fs : FileSys) (path : String) : Option FileContent :=
  (fs.files.find? (fun f => f.1 == path)).map (fun f => f.2)

/-- `fs.unlink(path)`: gives the `err.code` of the failure, if it fails. -/
def WorldOf.unlink {σ : Type} (w : WorldOf σ) (path : String) : Option String × WorldOf σ :=
  let w1 := w.emit (.unlink path)
  match w.fs.unlinkFaults.find? (fun f => f.1 == path) with
  | some fault => (some fault.2, w1)
  | none =>
    match w.fs.lookup path with
    | none => (some "ENOENT", w1)
    | some _ =>
      (none, { w1 with fs := { w1.fs with
          files := w1.fs.files.filter (fun f => f.1 != path) } })

/-- `fs.writeFileSync(path, data)` (also the file multer stores). -/
def WorldOf.writeFile {σ : Type} (w : WorldOf σ) (path : String) (data : FileContent) : WorldOf σ :=
  { w with fs := { w.fs with
      files := (path, data) :: w.fs.files.filter (fun f => f.1 != path) } }.emit
    (.writeFile path)

/-- `fs.readFileSync(path, "utf8")`: `none` when the file is missing. -/
def WorldOf.readFile {σ : Type} (w : WorldOf σ) (path : String) : Option FileContent × WorldOf σ :=
  (w.fs.lookup path, w.emit (.readFile path))

/-- `fs.mkdirSync(path)`. -/
def WorldOf.mkdir {σ : Type} (w : WorldOf σ) (path : String) : WorldOf σ :=
  { w with fs := { w.fs with dirs := path :: w.fs.dirs } }.emit (.mkdir path)

/-- `QRCode.toFile(path, data)` for the file `name` of the directory `dir`:
the image is created when the directory exists; otherwise the call fails,
and the `error.message` is given. -/
def WorldOf.qrToFile {σ : Type} (w : WorldOf σ) (dir name data : String) :
    Option String × WorldOf σ :=
  let path := pathJoin [dir, name]
  let w1 := w.emit (.qrToFile path data)
  if w.fs.dirs.contains dir then
    (none, { w1 with fs := { w1.fs with
        files := (path, .qrImage data) :: w1.fs.files.filter (fun f => f.1 != path) } })
  else
    (some ("ENOENT: no such file or directory, open '" ++ path ++ "'"), w1)

/-! ## Replies and the access gate -/

/-- One waiter of the restaurant page: the document with its `average_rating`. -/
structure WaiterView where
  waiter : Waiter
  average_rating : JsValue
deriving DecidableEq, Repr

/-- The locals given to the `restaurant` view. -/
structure RestaurantLocals where
  restaurant : Restaurant
  waiters : List WaiterView
  averageRating : JsValue
  user : Option User
deriving DecidableEq, Repr

inductive Reply where
  | redirect (url : String)
  | send (status : Nat) (body : String)
  | renderRestaurant (locals : RestaurantLocals)
deriving DecidableEq, Repr

/-- The outcomes of the admin check that opens every `/admin/...` handler. -/
inductive GateOutcome where
  | Allowed
  | RedirectToLogin
  | RedirectToHome
deriving DecidableEq, Repr

/-- The test `if (!req.session.user) ... else if (req.session.user.role != "admin") ...`. -/
def accessGate (session : Option User) : GateOutcome :=
  match session with
  | none => .RedirectToLogin
  | some user => if user.role != "admin" then .RedirectToHome else .Allowed

/-- The redirect the gate sends: `/login` without an identity, `/` for a wrong role. -/
def GateOutcome.reply : GateOutcome → Option Reply
  | .Allowed => none
  | .RedirectToLogin => some (.redirect "/login")
  | .RedirectToHome => some (.redirect "/")

/-- A reply attempted by a handler whose gate has not returned: the client has
the gate's redirect if one was sent (`sent`), and a later `res.redirect` or
`res.send` cannot replace it. -/
def respond (sent : Option Reply) (reply : Reply) : Reply :=
  sent.getD reply

/-! ## Rating handlers -/

/-- The callback `(r) => r.rating_by.toString() === userId.toString()`. -/
def ratedBy {σ : Type} (userId : ObjectId) (r : RatingOf σ) : Bool :=
  r.rating_by == userId

/-- Assigning to the record `Array.prototype.find` returned changes the first
matching record of the array in place. -/
def modifyFirst {σ : Type} (p : RatingOf σ → Bool) (f : RatingOf σ → RatingOf σ) :
    List (RatingOf σ) → List (RatingOf σ)
  | [] => []
  | r :: rs => if p r then f r :: rs else r :: modifyFirst p f rs

/-- `GET /restaurant/:restaurantId/rate/:rating` (lines 444-486). `rating` is
the number `parseInt(rating, 10)` gives, `now` is `new Date()`. -/
def rateRestaurant {σ : Type} (session : Option User) (restaurantId : ObjectId) (rating : σ)
    (now : Date) (w : WorldOf σ) : WorldOf σ × Reply :=
  match session with
  | none => (w, .redirect "/login")
  | some user =>
    let userId := user._id
    match findById RestaurantOf._id w.store.restaurants restaurantId with
    | none => (w.flash "error" "Restaurant not found", .redirect "/")
    | some restaurant =>
      match restaurant.ratings.find? (ratedBy userId) with
      | some _ =>
        (w.flash "error" "You have already rated this restaurant",
          .redirect ("/restaurants/" ++ restaurantId))
      | none =>
        let newRating : RatingOf σ := { rating := rating, rating_by := userId, date_time := now }
        let restaurant := { restaurant with ratings := restaurant.ratings ++ [newRating] }
        ((w.saveRestaurant restaurant).flash "success" "Thank you for rating this restaurant",
          .redirect ("/restaurants/" ++ restaurantId))

/-- Lines 505-521: update the rater's record, or push a new one. -/
def upsertWaiterRating {σ : Type} (ratings : List (RatingOf σ)) (userId : ObjectId)
    (rating : σ) (now : Date) : List (RatingOf σ) :=
  match ratings.find? (ratedBy userId) with
  | some _ =>
    modifyFirst (ratedBy userId) (fun r => { r with rating := rating, date_time := now }) ratings
  | none => ratings ++ [{ rating := rating, rating_by := userId, date_time := now }]

/-- `GET /waiter/:waiterId/rate/:rating/restaurant/:restaurantId` (lines
488-533). `rating` is the number the schema casts the path parameter to. -/
def rateWaiter {σ : Type} (session : Option User) (waiterId : ObjectId) (rating : σ)
    (restaurantId : ObjectId) (now : Date) (w : WorldOf σ) : WorldOf σ × Reply :=
  match session with
  | none => (w, .redirect "/login")
  | some user =>
    let userId := user._id
    match findById WaiterOf._id w.store.waiters waiterId with
    | none => (w, .send 404 "Waiter not found")
    | some waiter =>
      let waiter := { waiter with ratings := upsertWaiterRating waiter.ratings userId rating now }
      (w.saveWaiter waiter, .redirect ("/restaurants/" ++ restaurantId))

/-- `GET /restaurants/:id` (lines 394-442). -/
def getRestaurant (session : Option User) (restaurantId : ObjectId) (w : World) : Reply :=
  match findById Restaurant._id w.store.restaurants restaurantId with
  | none => .send 404 "Restaurant not found"
  | some restaurant =>
    let waiters := w.store.waiters.filter (fun x => x.restaurant_id == restaurantId)
    let waiters := waiters.map (fun waiter =>
      ({ waiter := waiter, average_rating := waiterAverageRating waiter.ratings } : WaiterView))
    .renderRestaurant
      { restaurant := restaurant, waiters := waiters,
        averageRating := restaurantAverageRating restaurant.ratings, user := session }

/-! ## Admin handlers -/

/-- Line 213: the QR file name of a restaurant. -/
def qrCodeFileName (id : ObjectId) : String :=
  "qr_" ++ id ++ ".png"

/-- Line 212: the URL the QR code encodes. -/
def qrCodeData (id : ObjectId) : String :=
  "http://localhost:3000/restaurants/" ++ id

/-- `POST /admin/restaurants/new` (lines 191-239). `newId` is the `_id` that
`new Restaurant({ name })` draws. When `QRCode.toFile` fails the `catch` of
lines 234-238 flashes the message and nothing is saved. -/
def createRestaurant {σ : Type} (session : Option User) (name : String) (newId : ObjectId)
    (w : WorldOf σ) : WorldOf σ × Reply :=
  match (accessGate session).reply with
  | some redirect => (w, redirect)
  | none =>
    match w.store.restaurants.find? (fun r => r.name == name) with
    | some _ =>
      (w.flash "error" "Restaurant name already exists.", .redirect "/admin/restaurants/new")
    | none =>
      let newRestaurant : RestaurantOf σ :=
        { _id := newId, name := name, ratings := [], qrCode := "" }
      match w.qrToFile (pathJoin ["public", "images", "qrcodes"])
          (qrCodeFileName newRestaurant._id) (qrCodeData newRestaurant._id) with
      | (some message, w) =>
        (w.flash "error" ("Error adding restaurant: " ++ message),
          .redirect "/admin/restaurants/new")
      | (none, w) =>
        let newRestaurant := { newRestaurant with qrCode := qrCodeFileName newRestaurant._id }
        let w := w.insertRestaurant newRestaurant
        (w.flash "success" "Restaurant added successfully.", .redirect "/admin/restaurants/new")

/-- What `upload.single("picture")` hands to its callback. -/
inductive Upload where
  | multerError (message : String)
  | otherError (message : String)
  | stored (filename : Option String)

/-- `POST /admin/waiters/save` (lines 268-313). The gate's redirects are not
returned, so the upload and the body run for every session. -/
def saveWaiter {σ : Type} (session : Option User) (upload : Upload) (name : String)
    (restaurant_id : ObjectId) (newId : ObjectId) (w : WorldOf σ) : WorldOf σ × Reply :=
  let sent := (accessGate session).reply
  match upload with
  | .multerError message => (w, respond sent (.send 500 ("File upload error: " ++ message)))
  | .otherError message => (w, respond sent (.send 500 ("Error: " ++ message)))
  | .stored none =>
    (w.consoleError "TypeError", respond sent (.send 500 "Error adding waiter"))
  | .stored (some picture) =>
    let w := w.writeFile (pathJoin ["public/uploads/waiters", picture]) .picture
    match findById RestaurantOf._id w.store.restaurants restaurant_id with
    | none => (w, respond sent (.send 404 "Restaurant not found"))
    | some _ =>
      let newWaiter : WaiterOf σ :=
        { _id := newId, restaurant_id := restaurant_id, name := name, picture := picture,
          ratings := [] }
      let w := w.insertWaiter newWaiter
      (w.flash "success" "Waiter added successfully",
        respond sent (.redirect ("/admin/restaurants/" ++ restaurant_id ++ "/waiters/new")))

/-- Lines 329-344: the callback mapped over the restaurant's waiters. The
`.catch` of the unlink logs every failure but ENOENT and rethrows none. -/
def cascadeWaiter {σ : Type} (w : WorldOf σ) (waiter : WaiterOf σ) : WorldOf σ :=
  let picturePath := pathJoin ["..", "public/uploads/waiters", waiter.picture]
  let w :=
    match w.unlink picturePath with
    | (some code, w) => if code != "ENOENT" then w.consoleError "Error deleting picture:" else w
    | (none, w) => w
  w.deleteWaiter waiter._id

/-- `GET /admin/restaurants/:restaurantId/delete` (lines 315-355). The gate's
redirects are not returned. The callbacks of `Promise.all` are run one waiter
after the other, in the order of the query result. -/
def deleteRestaurant {σ : Type} (session : Option User) (restaurantId : ObjectId)
    (w : WorldOf σ) : WorldOf σ × Reply :=
  let sent := (accessGate session).reply
  let waiters := w.store.waiters.filter (fun x => x.restaurant_id == restaurantId)
  let w := waiters.foldl cascadeWaiter w
  let w := w.deleteRestaurant restaurantId
  (w, respond sent (.redirect "/admin/restaurants"))

/-- `GET /admin/waiters/:waiterId/delete` (lines 357-392). The gate's
redirects are not returned. -/
def deleteWaiter {σ : Type} (session : Option User) (waiterId : ObjectId) (w : WorldOf σ) :
    WorldOf σ × Reply :=
  let sent := (accessGate session).reply
  match findById WaiterOf._id w.store.waiters waiterId with
  | none => (w, respond sent (.send 404 "Waiter not found"))
  | some waiter =>
    let (err, w) := w.unlink ("public/uploads/waiters/" ++ waiter.picture)
    if err.isSome && err != some "ENOENT" then
      (w.consoleError "Error deleting picture:",
        respond sent (.send 500 "Error deleting waiter's picture"))
    else
      let w := w.deleteWaiter waiterId
      (w, respond sent (.redirect "/admin/waiters"))


/-! ## The rating path parameter

The routes receive `:rating` as text. The restaurant route stores
`parseInt(rating, 10)`, the waiter route stores the text and the schema
(`rating: Number`) casts it with `Number(rating)`; a NaN does not cast, so
`save()` rejects and the `catch` of the handler answers. Neither the routes
nor the schema compare the number with a bound. Both functions give a double:
the value of the text, rounded (`roundToDouble`). -/

/-- The characters `parseInt` and `Number` skip: WhiteSpace and LineTerminator. -/
def isStrWhiteSpace (c : Char) : Bool :=
  let n := c.toNat
  n == 0x9 || n == 0xA || n == 0xB || n == 0xC || n == 0xD || n == 0x20 || n == 0xA0 ||
    n == 0x1680 || (0x2000 ≤ n && n ≤ 0x200A) || n == 0x2028 || n == 0x2029 ||
    n == 0x202F || n == 0x205F || n == 0x3000 || n == 0xFEFF

/-- The value of a digit in a radix up to 16, if it is one. -/
def digitValue (radix : Nat) (c : Char) : Option Nat :=
  let v :=
    if '0' ≤ c ∧ c ≤ '9' then c.toNat - '0'.toNat
    else if 'a' ≤ c ∧ c ≤ 'f' then c.toNat - 'a'.toNat + 10
    else if 'A' ≤ c ∧ c ≤ 'F' then c.toNat - 'A'.toNat + 10
    else radix
  if v < radix then some v else none

def isRadixDigit (radix : Nat) (c : Char) : Bool :=
  (digitValue radix c).isSome

/-- The number a run of digits denotes in the radix. -/
def digitsValue (radix : Nat) (digits : List Char) : Nat :=
  digits.foldl (fun acc c => radix * acc + (digitValue radix c).getD 0) 0

/-- `parseInt(text, 10)`: leading white space is skipped, one sign is read,
then the longest run of decimal digits, whose value is rounded to a double;
`none` is NaN (no digit). -/
def parseInt10 (text : String) : Option Score :=
  let s := text.data.dropWhile isStrWhiteSpace
  let signed : Bool × List Char :=
    match s with
    | '-' :: rest => (true, rest)
    | '+' :: rest => (false, rest)
    | _ => (false, s)
  let digits := signed.2.takeWhile (isRadixDigit 10)
  if digits.isEmpty then none
  else if signed.1 then some (roundToDouble (-(digitsValue 10 digits : ℚ)))
  else some (roundToDouble (digitsValue 10 digits : ℚ))

/-- A non-decimal literal `0x..`, `0o..`, `0b..`: the digits after the mark;
`none` is NaN. -/
def radixLiteral (radix : Nat) (digits : List Char) : Option Score :=
  if digits.isEmpty || !digits.all (isRadixDigit radix) then none
  else some (roundToDouble (digitsValue radix digits : ℚ))

/-- The exponent after `e` or `E`: an optional sign and decimal digits. -/
def exponentPart (s : List Char) : Option Int :=
  let signed : Bool × List Char :=
    match s with
    | '-' :: rest => (true, rest)
    | '+' :: rest => (false, rest)
    | _ => (false, s)
  if signed.2.isEmpty || !signed.2.all (isRadixDigit 10) then none
  else if signed.1 then some (-(digitsValue 10 signed.2 : Int))
  else some (digitsValue 10 signed.2 : Int)

/-- StrUnsignedDecimalLiteral but `Infinity`: digits, an optional fraction, an
optional exponent. Gives the mantissa `m` and the power `p` of the value
`m * 10 ^ p`; `none` when the text is no such literal. -/
def unsignedDecimal (s : List Char) : Option (Nat × Int) :=
  let intPart := s.takeWhile (isRadixDigit 10)
  let rest := s.dropWhile (isRadixDigit 10)
  let fraction : List Char × List Char :=
    match rest with
    | '.' :: r => (r.takeWhile (isRadixDigit 10), r.dropWhile (isRadixDigit 10))
    | _ => ([], rest)
  let mantissa := digitsValue 10 (intPart ++ fraction.1)
  if intPart.isEmpty && fraction.1.isEmpty then none
  else
    match fraction.2 with
    | [] => some (mantissa, -(fraction.1.length : Int))
    | c :: r =>
      if c == 'e' || c == 'E' then
        (exponentPart r).map (fun e => (mantissa, e - (fraction.1.length : Int)))
      else none

/-- The value `m * 10 ^ p`. -/
def decimalValue (m : Nat) (p : Int) : ℚ :=
  if 0 ≤ p then ((m * 10 ^ p.toNat : Nat) : ℚ) else mkRat m (10 ^ (-p).toNat)

/-- Mongoose's cast of a text to Number: the empty text gives `null`, another
text gives `Number(text)` (StringToNumber, rounded to a double), and NaN is
refused: `none`. -/
def numberCast (text : String) : Option Score :=
  if text = "" then some .null
  else
    let s := ((text.data.dropWhile isStrWhiteSpace).reverse.dropWhile isStrWhiteSpace).reverse
    match s with
    | [] => some (.finite 0)
    | '0' :: 'x' :: digits => radixLiteral 16 digits
    | '0' :: 'X' :: digits => radixLiteral 16 digits
    | '0' :: 'o' :: digits => radixLiteral 8 digits
    | '0' :: 'O' :: digits => radixLiteral 8 digits
    | '0' :: 'b' :: digits => radixLiteral 2 digits
    | '0' :: 'B' :: digits => radixLiteral 2 digits
    | _ =>
      let signed : Bool × List Char :=
        match s with
        | '-' :: rest => (true, rest)
        | '+' :: rest => (false, rest)
        | _ => (false, s)
      if signed.2 = "Infinity".data then some (if signed.1 then .negInf else .posInf)
      else
        match unsignedDecimal signed.2 with
        | none => none
        | some (m, p) =>
          some (roundToDouble (if signed.1 then -(decimalValue m p) else decimalValue m p))

/-- `GET /restaurant/:restaurantId/rate/:rating` (lines 444-486) with the path
parameter as text. When `parseInt` gives a number the handler stores it
(`rateRestaurant`); when it gives NaN the `save()` of line 476 rejects and the
`catch` of lines 480-484 answers. -/
def rateRestaurantRoute (session : Option User) (restaurantId : ObjectId) (rating : String)
    (now : Date) (w : WorldOf Score) : WorldOf Score × Reply :=
  match parseInt10 rating with
  | some score => rateRestaurant session restaurantId score now w
  | none =>
    match session with
    | none => (w, .redirect "/login")
    | some user =>
      match findById RestaurantOf._id w.store.restaurants restaurantId with
      | none => (w.flash "error" "Restaurant not found", .redirect "/")
      | some restaurant =>
        match restaurant.ratings.find? (ratedBy user._id) with
        | some _ =>
          (w.flash "error" "You have already rated this restaurant",
            .redirect ("/restaurants/" ++ restaurantId))
        | none =>
          ((w.consoleError "Error rating restaurant:").flash "error" "Error rating restaurant",
            .redirect ("/restaurants/" ++ restaurantId))

/-- `GET /waiter/:waiterId/rate/:rating/restaurant/:restaurantId` (lines
488-533) with the path parameter as text. When the cast gives a number the
handler stores it (`rateWaiter`); when it gives NaN the `save()` of line 524
rejects and the `catch` of lines 527-530 answers. -/
def rateWaiterRoute (session : Option User) (waiterId : ObjectId) (rating : String)
    (restaurantId : ObjectId) (now : Date) (w : WorldOf Score) : WorldOf Score × Reply :=
  match numberCast rating with
  | some score => rateWaiter session waiterId score restaurantId now w
  | none =>
    match session with
    | none => (w, .redirect "/login")
    | some _ =>
      match findById WaiterOf._id w.store.waiters waiterId with
      | none => (w, .send 404 "Waiter not found")
      | some _ => (w.consoleError "Error rating waiter:", .send 500 "Error rating waiter")

/-! ## Backup and restore -/

/-! ### What `JSON.stringify(docs, null, 2)` writes for the plain documents

An `ObjectId` is written as its hexadecimal text. A `Date` is written as the
instant it holds (its milliseconds stand for the ISO-8601 text of the same
instant). A finite score is written as a number; an infinite score, like
`null`, is written as `null`. -/

/-- What `JSON.stringify` writes for a score. -/
def Score.toJson : Score → JsonValue
  | .finite q => .num q
  | .posInf => .null
  | .negInf => .null
  | .null => .null

/-- Mongoose's cast of a parsed JSON value to Number: `null` stays `null`, a
number is kept, a text is read as by `numberCast`, anything else is refused. -/
def castNumber : JsonValue → Option Score
  | .null => some .null
  | .num q => some (.finite q)
  | .str s => numberCast s
  | _ => none

/-- A type of scores with what is written for a score and the cast back. -/
class NumberPath (σ : Type) where
  write : σ → JsonValue
  cast : JsonValue → Option σ

instance : NumberPath Score where
  write := Score.toJson
  cast := castNumber

/-- The whole-number scores inside `Score`: written as the finite number, and
got back from the cast when it gives a whole number. -/
instance : NumberPath Int where
  write := fun n => Score.toJson (.finite n)
  cast := fun j =>
    match castNumber j with
    | some (.finite q) => if q.den = 1 then some q.num else none
    | _ => none

def RatingOf.toJson {σ : Type} [NumberPath σ] (r : RatingOf σ) : JsonValue :=
  .obj [("rating", NumberPath.write r.rating), ("rating_by", .str r.rating_by),
    ("date_time", .num r.date_time)]

def RestaurantOf.toJson {σ : Type} [NumberPath σ] (r : RestaurantOf σ) : JsonValue :=
  .obj [("_id", .str r._id), ("name", .str r.name),
    ("ratings", .arr (r.ratings.map RatingOf.toJson)), ("qrCode", .str r.qrCode)]

def User.toJson (u : User) : JsonValue :=
  .obj [("_id", .str u._id), ("username", .str u.username), ("password", .str u.password),
    ("role", .str u.role)]

def WaiterOf.toJson {σ : Type} [NumberPath σ] (x : WaiterOf σ) : JsonValue :=
  .obj [("_id", .str x._id), ("restaurant_id", .str x.restaurant_id), ("name", .str x.name),
    ("picture", .str x.picture), ("ratings", .arr (x.ratings.map RatingOf.toJson))]

/-! ### What `Model.insertMany` makes of parsed JSON: the schema casts each path -/

def JsonValue.getField (j : JsonValue) (key : String) : Option JsonValue :=
  match j with
  | .obj fields => (fields.find? (fun f => f.1 == key)).map (fun f => f.2)
  | _ => none

def castString : JsonValue → Option String
  | .str s => some s
  | _ => none

/-- The cast of a `Date` path: the instant written. -/
def castDate : JsonValue → Option Date
  | .num q => if q.den = 1 then some q.num else none
  | _ => none

/-- Cast every item of a list, failing if one item fails. -/
def castAll {α : Type} (cast : JsonValue → Option α) : List JsonValue → Option (List α)
  | [] => some []
  | j :: js =>
    match cast j, castAll cast js with
    | some a, some rest => some (a :: rest)
    | _, _ => none

def castArray {α : Type} (cast : JsonValue → Option α) : JsonValue → Option (List α)
  | .arr items => castAll cast items
  | _ => none

def castRating {σ : Type} [NumberPath σ] (j : JsonValue) : Option (RatingOf σ) := do
  let rating ← (j.getField "rating").bind NumberPath.cast
  let rating_by ← (j.getField "rating_by").bind castString
  let date_time ← (j.getField "date_time").bind castDate
  pure (RatingOf.mk rating rating_by date_time)

def castRestaurant {σ : Type} [NumberPath σ] (j : JsonValue) : Option (RestaurantOf σ) := do
  let id ← (j.getField "_id").bind castString
  let name ← (j.getField "name").bind castString
  let ratings ← (j.getField "ratings").bind (castArray castRating)
  let qrCode ← (j.getField "qrCode").bind castString
  pure (RestaurantOf.mk id name ratings qrCode)

def castUser (j : JsonValue) : Option User := do
  let id ← (j.getField "_id").bind castString
  let username ← (j.getField "username").bind castString
  let password ← (j.getField "password").bind castString
  let role ← (j.getField "role").bind castString
  pure (User.mk id username password role)

def castWaiter {σ : Type} [NumberPath σ] (j : JsonValue) : Option (WaiterOf σ) := do
  let id ← (j.getField "_id").bind castString
  let restaurant_id ← (j.getField "restaurant_id").bind castString
  let name ← (j.getField "name").bind castString
  let picture ← (j.getField "picture").bind castString
  let ratings ← (j.getField "ratings").bind (castArray castRating)
  pure (WaiterOf.mk id restaurant_id name picture ratings)

/-- `Restaurant.insertMany(data)`: `none` when a document does not cast. -/
def WorldOf.insertManyRestaurants {σ : Type} [NumberPath σ] (w : WorldOf σ)
    (data : JsonValue) : Option (WorldOf σ) :=
  (castArray castRestaurant data).map (fun docs =>
    { w with store := { w.store with
        restaurants := w.store.restaurants ++ docs } }.emit
      (.insertMany "Restaurant" docs.length))

/-- `User.insertMany(data)`. -/
def WorldOf.insertManyUsers {σ : Type} (w : WorldOf σ) (data : JsonValue) :
    Option (WorldOf σ) :=
  (castArray castUser data).map (fun docs =>
    { w with store := { w.store with users := w.store.users ++ docs } }.emit
      (.insertMany "User" docs.length))

/-- `Waiter.insertMany(data)`. -/
def WorldOf.insertManyWaiters {σ : Type} [NumberPath σ] (w : WorldOf σ)
    (data : JsonValue) : Option (WorldOf σ) :=
  (castArray castWaiter data).map (fun docs =>
    { w with store := { w.store with waiters := w.store.waiters ++ docs } }.emit
      (.insertMany "Waiter" docs.length))

/-- `JSON.parse(fs.readFileSync(path, "utf8"))`: `none` when either throws. -/
def WorldOf.readJson {σ : Type} (w : WorldOf σ) (path : String) :
    Option JsonValue × WorldOf σ :=
  match w.readFile path with
  | (some (.json doc), w) => (some doc, w)
  | (_, w) => (none, w)

/-- `GET /backup` (lines 546-582). -/
def backup {σ : Type} [NumberPath σ] (w : WorldOf σ) : WorldOf σ × Reply :=
  let restaurants := w.store.restaurants
  let users := w.store.users
  let waiters := w.store.waiters
  let backupDir := pathJoin ["backup"]
  let w := if !w.fs.dirs.contains backupDir then w.mkdir backupDir else w
  let w := w.writeFile (pathJoin [backupDir, "restaurants.json"])
    (.json (.arr (restaurants.map RestaurantOf.toJson)))
  let w := w.writeFile (pathJoin [backupDir, "users.json"])
    (.json (.arr (users.map User.toJson)))
  let w := w.writeFile (pathJoin [backupDir, "waiters.json"])
    (.json (.arr (waiters.map WaiterOf.toJson)))
  (w, .send 200 "Backup created successfully!")

/-- The reply of the `catch` of `/loadbackup`:
`res.send("Error loading backup data:", error)`. -/
def loadbackupFailure : Reply :=
  .send 200 "Error loading backup data:"

/-- `GET /loadbackup` (lines 584-619). -/
def loadbackup {σ : Type} [NumberPath σ] (w : WorldOf σ) : WorldOf σ × Reply :=
  let restaurantCount := w.store.restaurants.length
  let userCount := w.store.users.length
  let waiterCount := w.store.waiters.length
  if restaurantCount > 0 || userCount > 0 || waiterCount > 0 then
    (w, .send 200 "Data already exists in the database. Skipping loading backup data.")
  else
    let backupFolderPath := pathJoin ["backup"]
    match w.readJson (pathJoin [backupFolderPath, "restaurants.json"]) with
    | (none, w) => (w, loadbackupFailure)
    | (some restaurantData, w) =>
      match w.readJson (pathJoin [backupFolderPath, "users.json"]) with
      | (none, w) => (w, loadbackupFailure)
      | (some userData, w) =>
        match w.readJson (pathJoin [backupFolderPath, "waiters.json"]) with
        | (none, w) => (w, loadbackupFailure)
        | (some waiterData, w) =>
          match w.insertManyRestaurants restaurantData with
          | none => (w, loadbackupFailure)
          | some w =>
            match w.insertManyUsers userData with
            | none => (w, loadbackupFailure)
            | some w =>
              match w.insertManyWaiters waiterData with
              | none => (w, loadbackupFailure)
              | some w => (w, .send 200 "Backup data loaded successfully.")

/-! ## Vocabulary of the statements and sample states -/

def ann : User := ⟨"u1", "ann", "hash-ann", "normal"⟩

def root : User := ⟨"a1", "root", "hash-root", "admin"⟩

/-- The sum of the scores of a rating sequence. -/
def scoreSum (ratings : List Rating) : Int :=
  (ratings.map (fun r => r.rating)).sum

/-- The value `v` is the labelled average of a rating sequence: the text of
the integer nearest to sum / count (a half going up) followed by " / 100". -/
def IsLabelledAverage (ratings : List Rating) (v : JsValue) : Prop :=
  ∃ n : Int,
    (n : ℚ) - 1 / 2 ≤ (scoreSum ratings : ℚ) / (ratings.length : ℚ) ∧
    (scoreSum ratings : ℚ) / (ratings.length : ℚ) < (n : ℚ) + 1 / 2 ∧
    v = .str (toString n ++ " / 100")

/-- The value `v` is some integer followed by the unit label. -/
def IsLabelled (v : JsValue) : Prop :=
  ∃ n : Int, v = .str (toString n ++ " / 100")

/-- A state with a rated restaurant, one waiter without ratings and one with. -/
def pageWorld : World :=
  { store :=
      { users := [ann, root],
        restaurants := [⟨"r1", "Bistro A", [⟨80, "u1", 1⟩, ⟨75, "u2", 2⟩], "qr_r1.png"⟩],
        waiters :=
          [⟨"w1", "r1", "Bob", "1.png", []⟩,
           ⟨"w2", "r1", "Cy", "2.png", [⟨70, "u1", 3⟩, ⟨90, "u2", 4⟩, ⟨60, "u3", 5⟩]⟩] },
    fs := { files := [], dirs := [], unlinkFaults := [] },
    log := [] }

/-- The locals the restaurant page of `r1` is rendered with in `pageWorld`. -/
def pageLocals : RestaurantLocals :=
  { restaurant := ⟨"r1", "Bistro A", [⟨80, "u1", 1⟩, ⟨75, "u2", 2⟩], "qr_r1.png"⟩,
    waiters :=
      [⟨⟨"w1", "r1", "Bob", "1.png", []⟩, .num 0⟩,
       ⟨⟨"w2", "r1", "Cy", "2.png", [⟨70, "u1", 3⟩, ⟨90, "u2", 4⟩, ⟨60, "u3", 5⟩]⟩,
         .str "73 / 100"⟩],
    averageRating := .str "78 / 100",
    user := none }

/-- Each rater identity occurs at most once in the rating sequence. -/
def RaterUnique (ratings : List Rating) : Prop :=
  (ratings.map (fun r => r.rating_by)).Nodup

instance (ratings : List Rating) : Decidable (RaterUnique ratings) := by
  unfold RaterUnique
  infer_instance

/-- One rate-waiter call of a rater: the score, the restaurant of the path and
the time of the call. -/
structure RateCall where
  rating : Int
  restaurantId : ObjectId
  now : Date
deriving DecidableEq, Repr

/-- The calls of `user` to the rate-waiter route of one waiter, in order. -/
def rateWaiterCalls (user : User) (waiterId : ObjectId) (calls : List RateCall)
    (w : World) : World :=
  calls.foldl (fun w c => (rateWaiter (some user) waiterId c.rating c.restaurantId c.now w).1) w

/-- A state with the restaurant "Bistro A", not rated yet. -/
def bistroWorld : World :=
  { store :=
      { users := [ann, root],
        restaurants := [⟨"r1", "Bistro A", [], "qr_r1.png"⟩],
        waiters := [] },
    fs := { files := [], dirs := [], unlinkFaults := [] },
    log := [] }

/-- A freshly emptied database. -/
def emptyStore {σ : Type} : StoreOf σ :=
  { users := [], restaurants := [], waiters := [] }

/-- What the `.catch` of the cascade logs for an unlink result: a
`console.error` for every failure but ENOENT. -/
def cascadeCatchLog (err : Option String) : List Event :=
  match err with
  | some code => if code != "ENOENT" then [.consoleError "Error deleting picture:"] else []
  | none => []

/-- A state with two restaurants: `r1` has the waiters `w1` (whose picture
cannot be removed: EACCES) and `w3` (whose picture is absent), `r2` has `w2`. -/
def cascadeWorld : World :=
  { store :=
      { users := [ann, root],
        restaurants :=
          [⟨"r1", "Bistro A", [⟨80, "u1", 1⟩], "qr_r1.png"⟩, ⟨"r2", "Bistro B", [], "qr_r2.png"⟩],
        waiters :=
          [⟨"w1", "r1", "Bob", "1.png", []⟩,
           ⟨"w2", "r2", "Al", "2.png", [⟨70, "u1", 3⟩]⟩,
           ⟨"w3", "r1", "Cy", "3.png", []⟩] },
    fs :=
      { files := [("public/uploads/waiters/2.png", .picture)],
        dirs := ["public/uploads/waiters"],
        unlinkFaults :=
          [("../public/uploads/waiters/1.png", "EACCES"),
           ("public/uploads/waiters/1.png", "EACCES")] },
    log := [] }

/-- Every restaurant carries the QR reference `qr_<id>.png` of its own
identity, and the identities are pairwise distinct. -/
def QrWellFormed {σ : Type} (restaurants : List (RestaurantOf σ)) : Prop :=
  (restaurants.map RestaurantOf._id).Nodup ∧
    ∀ r ∈ restaurants, r.qrCode = "qr_" ++ r._id ++ ".png"

/-- A state with an admin and no restaurant yet. -/
def freshWorld : World :=
  { store := { users := [ann, root], restaurants := [], waiters := [] },
    fs := { files := [], dirs := ["public/images/qrcodes"], unlinkFaults := [] },
    log := [] }

/-- The score is a number in [0,100]. -/
def Score.InRange : Score → Prop
  | .finite q => 0 ≤ q ∧ q ≤ 100
  | _ => False

instance (s : Score) : Decidable s.InRange := by
  cases s <;> unfold Score.InRange <;> infer_instance

/-- Every record of the rating sequence has a numeric score in [0,100]. -/
def InRange (ratings : List (RatingOf Score)) : Prop :=
  ∀ r ∈ ratings, r.rating.InRange

instance (ratings : List (RatingOf Score)) : Decidable (InRange ratings) := by
  unfold InRange
  infer_instance

/-- The score is not an infinity. -/
def Score.NotInfinite : Score → Prop
  | .posInf => False
  | .negInf => False
  | _ => True

instance (s : Score) : Decidable s.NotInfinite := by
  cases s <;> unfold Score.NotInfinite <;> infer_instance

/-- No rating record of the store holds an infinite score. -/
def NoInfiniteScore (s : StoreOf Score) : Prop :=
  (∀ r ∈ s.restaurants, ∀ x ∈ r.ratings, x.rating.NotInfinite) ∧
    (∀ y ∈ s.waiters, ∀ x ∈ y.ratings, x.rating.NotInfinite)

instance (s : StoreOf Score) : Decidable (NoInfiniteScore s) := by
  unfold NoInfiniteScore
  infer_instance

/-- The state `pageWorld` with the full range of scores: a rated restaurant,
one waiter without ratings and one with. -/
def scoreWorld : WorldOf Score :=
  { store :=
      { users := [ann, root],
        restaurants :=
          [⟨"r1", "Bistro A", [⟨.finite 80, "u1", 1⟩, ⟨.finite 75, "u2", 2⟩], "qr_r1.png"⟩],
        waiters :=
          [⟨"w1", "r1", "Bob", "1.png", []⟩,
           ⟨"w2", "r1", "Cy", "2.png",
             [⟨.finite 70, "u1", 3⟩, ⟨.finite 90, "u2", 4⟩, ⟨.finite 60, "u3", 5⟩]⟩] },
    fs := { files := [], dirs := [], unlinkFaults := [] },
    log := [] }

/-- The state after `ann` rates the waiter `w1` of `scoreWorld` with the path
parameter "Infinity". -/
def infinityWorld : WorldOf Score :=
  (rateWaiterRoute (some ann) "w1" "Infinity" "r1" 9 scoreWorld).1

/-- The state after `ann` rates the waiter `w1` of `scoreWorld` with the path
parameter "1.5". -/
def fractionWorld : WorldOf Score :=
  (rateWaiterRoute (some ann) "w1" "1.5" "r1" 9 scoreWorld).1

/-! ## Rating aggregation: proofs -/

theorem foldl_add_rating (ratings : List Rating) (acc : Int) :
    ratings.foldl (fun total rating => total + rating.rating) acc = acc + scoreSum ratings := by
  induction ratings generalizing acc with
  | nil => simp [scoreSum]
  | cons r rs ih =>
    simp only [List.foldl_cons, ih, scoreSum, List.map_cons, List.sum_cons]
    ring

theorem totalRating_eq_scoreSum (ratings : List Rating) : totalRating ratings = scoreSum ratings := by
  simp [totalRating, foldl_add_rating]

theorem mathRound_nearest (x : ℚ) :
    ((mathRound x : Int) : ℚ) - 1 / 2 ≤ x ∧ x < ((mathRound x : Int) : ℚ) + 1 / 2 := by
  unfold mathRound
  have h1 := Int.floor_le (x + 1 / 2)
  have h2 := Int.lt_floor_add_one (x + 1 / 2)
  constructor <;> linarith

theorem labelled_of_nonempty (ratings : List Rating) (h : ratings ≠ []) :
    IsLabelledAverage ratings (restaurantAverageRating ratings) ∧
      IsLabelledAverage ratings (waiterAverageRating ratings) := by
  have hlen : ratings.length ≠ 0 := by
    intro h0
    exact h (List.length_eq_zero.mp h0)
  have hr := mathRound_nearest ((scoreSum ratings : ℚ) / (ratings.length : ℚ))
  constructor
  · refine ⟨mathRound ((scoreSum ratings : ℚ) / (ratings.length : ℚ)), hr.1, hr.2, ?_⟩
    simp [restaurantAverageRating, hlen, totalRating_eq_scoreSum]
  · refine ⟨mathRound ((scoreSum ratings : ℚ) / (ratings.length : ℚ)), hr.1, hr.2, ?_⟩
    simp [waiterAverageRating, hlen, totalRating_eq_scoreSum]

theorem sentinel_not_labelled : ¬ IsLabelled (.str "No ratings yet") := by
  rintro ⟨n, hn⟩
  have h := congrArg (fun v => match v with
    | JsValue.str s => s.data.getLast?
    | JsValue.num _ => none) hn
  simp [String.data_append] at h

theorem zero_not_labelled : ¬ IsLabelled (.num 0) := by
  rintro ⟨n, hn⟩
  cases hn

/-- C1 (as amended): on the restaurant page the restaurant's average and each
waiter's average of a non-empty rating sequence are the text of
round(sum / count), a half going up, followed by " / 100"; for an empty
sequence the restaurant shows "No ratings yet" and a waiter shows the number
0, neither of them a labelled number. -/
theorem average_shown_on_page (session : Option User) (restaurantId : ObjectId) (w : World)
    (locals : RestaurantLocals)
    (h : getRestaurant session restaurantId w = .renderRestaurant locals) :
    findById Restaurant._id w.store.restaurants restaurantId = some locals.restaurant ∧
    locals.waiters.map (fun v => v.waiter) =
      w.store.waiters.filter (fun x => x.restaurant_id == restaurantId) ∧
    (locals.restaurant.ratings ≠ [] →
      IsLabelledAverage locals.restaurant.ratings locals.averageRating) ∧
    (locals.restaurant.ratings = [] →
      locals.averageRating = .str "No ratings yet" ∧ ¬ IsLabelled locals.averageRating) ∧
    ∀ v ∈ locals.waiters,
      (v.waiter.ratings ≠ [] → IsLabelledAverage v.waiter.ratings v.average_rating) ∧
      (v.waiter.ratings = [] → v.average_rating = .num 0 ∧ ¬ IsLabelled v.average_rating) := by
  unfold getRestaurant at h
  cases hf : findById Restaurant._id w.store.restaurants restaurantId with
  | none => simp [hf] at h
  | some restaurant =>
    simp only [hf, Reply.renderRestaurant.injEq] at h
    subst h
    refine ⟨rfl, ?_, ?_, ?_, ?_⟩
    · simp [List.map_map, Function.comp_def]
    · intro hne
      exact (labelled_of_nonempty _ hne).1
    · intro hnil
      have hnil : restaurant.ratings = [] := hnil
      have hv : restaurantAverageRating restaurant.ratings = .str "No ratings yet" := by
        simp [restaurantAverageRating, hnil]
      exact ⟨hv, by simpa [hv] using sentinel_not_labelled⟩
    · intro v hv
      simp only [List.mem_map] at hv
      obtain ⟨x, -, rfl⟩ := hv
      refine ⟨fun hne => (labelled_of_nonempty _ hne).2, fun hnil => ?_⟩
      have hnil : x.ratings = [] := hnil
      have hz : waiterAverageRating x.ratings = .num 0 := by
        simp [waiterAverageRating, hnil]
      exact ⟨hz, by simpa [hz] using zero_not_labelled⟩

/-- The restaurant page of `r1` in `pageWorld`: 155 / 2 = 77.5 is shown as
"78 / 100", the waiter without ratings shows 0, the other 220 / 3 as "73 / 100". -/
theorem average_shown_on_page_witness :
    getRestaurant none "r1" pageWorld = .renderRestaurant pageLocals ∧
      IsLabelledAverage pageLocals.restaurant.ratings (.str "78 / 100") ∧
      ∀ v ∈ pageLocals.waiters,
        (v.waiter.ratings ≠ [] → IsLabelledAverage v.waiter.ratings v.average_rating) ∧
        (v.waiter.ratings = [] → v.average_rating = .num 0 ∧ ¬ IsLabelled v.average_rating) :=
  ⟨by decide!,
    (average_shown_on_page none "r1" pageWorld pageLocals (by decide!)).2.2.1 (by decide),
    (average_shown_on_page none "r1" pageWorld pageLocals (by decide!)).2.2.2.2⟩

/-- C1 (as stated) fails: the waiter `w1` of `pageWorld` has no ratings and
the page shows the number 0 for it, not the text "No ratings yet". -/
theorem waiter_without_ratings_shows_zero :
    ∃ locals v, getRestaurant none "r1" pageWorld = .renderRestaurant locals ∧
      v ∈ locals.waiters ∧ v.waiter.ratings = [] ∧
      v.average_rating = .num 0 ∧ v.average_rating ≠ .str "No ratings yet" :=
  ⟨pageLocals, ⟨⟨"w1", "r1", "Bob", "1.png", []⟩, .num 0⟩, by decide!, by decide, rfl, rfl,
    by decide⟩

/-! ## Rating upsert: proofs -/

theorem findById_key {α : Type} (key : α → ObjectId) (docs : List α) (id : ObjectId) (d : α)
    (h : findById key docs id = some d) : key d = id := by
  have := List.find?_some h
  simpa using this

theorem findById_mem {α : Type} (key : α → ObjectId) (docs : List α) (id : ObjectId) (d : α)
    (h : findById key docs id = some d) : d ∈ docs :=
  List.mem_of_find?_eq_some h

theorem findById_replaceById_same {α : Type} (key : α → ObjectId) (docs : List α)
    (id : ObjectId) (d doc : α) (h : findById key docs id = some d) (hk : key doc = key d) :
    findById key (replaceById key doc docs) id = some doc := by
  have hid : key d = id := findById_key key docs id d h
  induction docs with
  | nil => simp [findById] at h
  | cons x xs ih =>
    by_cases hx : key x = id
    · simp [replaceById, findById, hx, hk, hid]
    · have hx2 : ¬ key x = key doc := by rw [hk, hid]; exact hx
      have h2 : findById key xs id = some d := by
        simpa [findById, hx] using h
      simpa [replaceById, findById, hx, hx2] using ih h2

theorem findById_replaceById_other {α : Type} (key : α → ObjectId) (docs : List α)
    (id : ObjectId) (doc : α) (hk : key doc ≠ id) :
    findById key (replaceById key doc docs) id = findById key docs id := by
  induction docs with
  | nil => simp [replaceById]
  | cons x xs ih =>
    by_cases hx : key x = key doc
    · have hx2 : ¬ key x = id := by rw [hx]; exact hk
      simp [replaceById, findById, hx, hx2, hk]
    · by_cases hx3 : key x = id
      · have hx4 : ¬ id = key doc := fun e => hk e.symm
        simp [replaceById, findById, hx3, hx4]
      · simpa [replaceById, findById, hx, hx3] using ih

theorem modifyFirst_raters (p : Rating → Bool) (f : Rating → Rating)
    (hf : ∀ r, (f r).rating_by = r.rating_by) (ratings : List Rating) :
    (modifyFirst p f ratings).map (fun r => r.rating_by) = ratings.map (fun r => r.rating_by) := by
  induction ratings with
  | nil => rfl
  | cons r rs ih =>
    by_cases hp : p r
    · simp [modifyFirst, hp, hf]
    · simp [modifyFirst, hp, ih]

theorem find_ratedBy_none (userId : ObjectId) (ratings : List Rating) :
    ratings.find? (ratedBy userId) = none ↔ userId ∉ ratings.map (fun r => r.rating_by) := by
  simp only [List.find?_eq_none, List.mem_map, ratedBy]
  constructor
  · rintro h ⟨r, hr, rfl⟩
    exact h r hr (by simp)
  · intro h r hr hb
    exact h ⟨r, hr, by simpa using hb⟩

theorem upsertWaiterRating_unique (ratings : List Rating) (userId : ObjectId) (rating : Int)
    (now : Date) (h : RaterUnique ratings) :
    RaterUnique (upsertWaiterRating ratings userId rating now) := by
  unfold upsertWaiterRating
  cases hf : ratings.find? (ratedBy userId) with
  | some r =>
    simp only [RaterUnique]
    rw [modifyFirst_raters (ratedBy userId)
      (fun r => { r with rating := rating, date_time := now }) (fun _ => rfl)]
    exact h
  | none =>
    have hn := (find_ratedBy_none userId ratings).mp hf
    simp only [RaterUnique, List.map_append, List.map_cons, List.map_nil]
    refine List.Nodup.append h (by simp) ?_
    simpa [List.Disjoint] using hn

theorem filter_ratedBy_nil (userId : ObjectId) (ratings : List Rating)
    (h : userId ∉ ratings.map (fun r => r.rating_by)) :
    ratings.filter (ratedBy userId) = [] := by
  rw [List.filter_eq_nil_iff]
  intro r hr hb
  exact h (List.mem_map.mpr ⟨r, hr, by simpa [ratedBy] using hb⟩)

theorem filter_modifyFirst (userId : ObjectId) (rating : Int) (now : Date)
    (ratings : List Rating) (h : RaterUnique ratings)
    (hex : userId ∈ ratings.map (fun r => r.rating_by)) :
    (modifyFirst (ratedBy userId)
      (fun r => { r with rating := rating, date_time := now }) ratings).filter (ratedBy userId)
      = [{ rating := rating, rating_by := userId, date_time := now }] := by
  induction ratings with
  | nil => simp at hex
  | cons r rs ih =>
    simp only [RaterUnique, List.map_cons, List.nodup_cons] at h
    by_cases hp : r.rating_by = userId
    · have hrs : userId ∉ rs.map (fun r => r.rating_by) := by rw [← hp]; exact h.1
      simp [modifyFirst, ratedBy, hp, List.filter_cons]
      simpa [ratedBy] using filter_ratedBy_nil userId rs hrs
    · have hex2 : userId ∈ rs.map (fun r => r.rating_by) := by
        simp only [List.map_cons, List.mem_cons] at hex
        rcases hex with hex | hex
        · exact absurd hex.symm hp
        · exact hex
      have := ih h.2 hex2
      simpa [modifyFirst, ratedBy, hp, List.filter_cons] using this

theorem upsertWaiterRating_filter (ratings : List Rating) (userId : ObjectId) (rating : Int)
    (now : Date) (h : RaterUnique ratings) :
    (upsertWaiterRating ratings userId rating now).filter (ratedBy userId)
      = [{ rating := rating, rating_by := userId, date_time := now }] := by
  unfold upsertWaiterRating
  cases hf : ratings.find? (ratedBy userId) with
  | some r =>
    have hex : userId ∈ ratings.map (fun r => r.rating_by) := by
      by_contra hc
      rw [(find_ratedBy_none userId ratings).mpr hc] at hf
      cases hf
    exact filter_modifyFirst userId rating now ratings h hex
  | none =>
    have hn := (find_ratedBy_none userId ratings).mp hf
    simp [List.filter_append, filter_ratedBy_nil userId ratings hn, ratedBy, List.filter_cons]

theorem rateWaiter_waiters {σ : Type} (user : User) (waiterId : ObjectId) (rating : σ)
    (restaurantId : ObjectId) (now : Date) (w : WorldOf σ) (waiter : WaiterOf σ)
    (h : findById WaiterOf._id w.store.waiters waiterId = some waiter) :
    (rateWaiter (some user) waiterId rating restaurantId now w).1.store.waiters =
      replaceById WaiterOf._id
        { waiter with ratings := upsertWaiterRating waiter.ratings user._id rating now }
        w.store.waiters := by
  simp [rateWaiter, h, WorldOf.saveWaiter, WorldOf.emit]

/-- C2: for a waiter whose rating sequence holds at most one record per rater,
after any non-empty sequence of rate-waiter calls of one user the waiter's
sequence holds exactly one record of that user, and it carries the score and
the time of the last call. -/
theorem rateWaiterCalls_latest (user : User) (waiterId : ObjectId) (calls : List RateCall)
    (hne : calls ≠ []) (w : World) (waiter : Waiter)
    (hfind : findById Waiter._id w.store.waiters waiterId = some waiter)
    (huniq : RaterUnique waiter.ratings) :
    ∃ waiter', findById Waiter._id (rateWaiterCalls user waiterId calls w).store.waiters waiterId
        = some waiter' ∧
      waiter'.ratings.filter (ratedBy user._id) =
        [{ rating := (calls.getLast hne).rating, rating_by := user._id,
           date_time := (calls.getLast hne).now }] ∧
      RaterUnique waiter'.ratings := by
  induction calls generalizing w waiter with
  | nil => exact absurd rfl hne
  | cons c cs ih =>
    have hkey : waiter._id = waiterId := findById_key Waiter._id _ _ _ hfind
    have h1 : findById Waiter._id
        (rateWaiter (some user) waiterId c.rating c.restaurantId c.now w).1.store.waiters waiterId
        = some { waiter with
            ratings := upsertWaiterRating waiter.ratings user._id c.rating c.now } := by
      rw [rateWaiter_waiters user waiterId c.rating c.restaurantId c.now w waiter hfind]
      exact findById_replaceById_same Waiter._id _ _ waiter _ hfind rfl
    have hu := upsertWaiterRating_unique waiter.ratings user._id c.rating c.now huniq
    by_cases hcs : cs = []
    · subst hcs
      exact ⟨_, h1, upsertWaiterRating_filter waiter.ratings user._id c.rating c.now huniq, hu⟩
    · obtain ⟨waiter', hw1, hw2, hw3⟩ := ih hcs _ _ h1 hu
      refine ⟨waiter', ?_, ?_, hw3⟩
      · simpa [rateWaiterCalls] using hw1
      · rw [List.getLast_cons hcs]
        exact hw2

/-- The scenario of the specification: the waiter `w1` of `pageWorld` is rated
70 and then 90 by `ann`; one record is left, with score 90, and the average
shown is 90. -/
theorem rateWaiterCalls_latest_witness :
    (∃ waiter',
      findById Waiter._id
        (rateWaiterCalls ann "w1" [⟨70, "r1", 10⟩, ⟨90, "r1", 20⟩] pageWorld).store.waiters "w1"
        = some waiter' ∧
      waiter'.ratings.filter (ratedBy "u1") = [⟨90, "u1", 20⟩] ∧
      RaterUnique waiter'.ratings) ∧
    findById Waiter._id
        (rateWaiterCalls ann "w1" [⟨70, "r1", 10⟩, ⟨90, "r1", 20⟩] pageWorld).store.waiters "w1"
      = some ⟨"w1", "r1", "Bob", "1.png", [⟨90, "u1", 20⟩]⟩ ∧
    waiterAverageRating [⟨90, "u1", 20⟩] = .str "90 / 100" :=
  ⟨rateWaiterCalls_latest ann "w1" [⟨70, "r1", 10⟩, ⟨90, "r1", 20⟩] (by decide) pageWorld
      ⟨"w1", "r1", "Bob", "1.png", []⟩ (by decide) (by decide),
    by decide, by decide!⟩

/-- C3: when the restaurant's rating sequence already holds a record of the
logged-in user, the rate-restaurant route flashes the duplicate-rating error,
redirects to the restaurant page and leaves the world as it was but for that
flash: the store, hence the rating sequence and the page with its average,
are unchanged. -/
theorem rateRestaurant_duplicate (user : User) (restaurantId : ObjectId) (rating : Int)
    (now : Date) (w : World) (restaurant : Restaurant)
    (hfind : findById Restaurant._id w.store.restaurants restaurantId = some restaurant)
    (hrated : user._id ∈ restaurant.ratings.map (fun r => r.rating_by)) :
    (rateRestaurant (some user) restaurantId rating now w).2
        = .redirect ("/restaurants/" ++ restaurantId) ∧
      (rateRestaurant (some user) restaurantId rating now w).1.log
        = w.log ++ [.flash "error" "You have already rated this restaurant"] ∧
      (rateRestaurant (some user) restaurantId rating now w).1.store = w.store ∧
      findById Restaurant._id
        (rateRestaurant (some user) restaurantId rating now w).1.store.restaurants restaurantId
        = some restaurant ∧
      ∀ session, getRestaurant session restaurantId
          (rateRestaurant (some user) restaurantId rating now w).1
        = getRestaurant session restaurantId w := by
  cases hf : restaurant.ratings.find? (ratedBy user._id) with
  | none => exact absurd hrated ((find_ratedBy_none user._id restaurant.ratings).mp hf)
  | some r =>
    have hout : rateRestaurant (some user) restaurantId rating now w =
        (w.flash "error" "You have already rated this restaurant",
          .redirect ("/restaurants/" ++ restaurantId)) := by
      simp [rateRestaurant, hfind, hf]
    rw [hout]
    refine ⟨rfl, rfl, rfl, hfind, fun _ => rfl⟩

/-- The scenario of the specification: `ann` rates "Bistro A" with 80 and then
with 60; the second call is refused and the average shown stays 80. -/
theorem rateRestaurant_duplicate_witness :
    (rateRestaurant (some ann) "r1" 60 20 (rateRestaurant (some ann) "r1" 80 10 bistroWorld).1).2
        = .redirect "/restaurants/r1" ∧
      (rateRestaurant (some ann) "r1" 60 20
          (rateRestaurant (some ann) "r1" 80 10 bistroWorld).1).1.store.restaurants
        = [⟨"r1", "Bistro A", [⟨80, "u1", 10⟩], "qr_r1.png"⟩] ∧
      restaurantAverageRating [⟨80, "u1", 10⟩] = .str "80 / 100" :=
  ⟨(rateRestaurant_duplicate ann "r1" 60 20 (rateRestaurant (some ann) "r1" 80 10 bistroWorld).1
      ⟨"r1", "Bistro A", [⟨80, "u1", 10⟩], "qr_r1.png"⟩ (by decide) (by decide)).1,
    by decide, by decide!⟩

/-! ## At most one rating per rater -/

theorem rateRestaurant_restaurants {σ : Type} (user : User) (restaurantId : ObjectId)
    (rating : σ) (now : Date) (w : WorldOf σ) (restaurant : RestaurantOf σ)
    (hf : findById RestaurantOf._id w.store.restaurants restaurantId = some restaurant)
    (hr : restaurant.ratings.find? (ratedBy user._id) = none) :
    (rateRestaurant (some user) restaurantId rating now w).1.store.restaurants =
      replaceById RestaurantOf._id
        { restaurant with
          ratings := restaurant.ratings ++
            [{ rating := rating, rating_by := user._id, date_time := now }] }
        w.store.restaurants := by
  simp [rateRestaurant, hf, hr, WorldOf.saveRestaurant, WorldOf.flash, WorldOf.emit]

theorem rateRestaurant_waiters {σ : Type} (session : Option User) (restaurantId : ObjectId)
    (rating : σ) (now : Date) (w : WorldOf σ) :
    (rateRestaurant session restaurantId rating now w).1.store.waiters = w.store.waiters := by
  cases session with
  | none => rfl
  | some user =>
    cases hf : findById RestaurantOf._id w.store.restaurants restaurantId with
    | none => simp [rateRestaurant, hf, WorldOf.flash, WorldOf.emit]
    | some restaurant =>
      cases hr : restaurant.ratings.find? (ratedBy user._id) <;>
        simp [rateRestaurant, hf, hr, WorldOf.saveRestaurant, WorldOf.flash, WorldOf.emit]

theorem rateWaiter_restaurants {σ : Type} (session : Option User) (waiterId : ObjectId)
    (rating : σ) (restaurantId : ObjectId) (now : Date) (w : WorldOf σ) :
    (rateWaiter session waiterId rating restaurantId now w).1.store.restaurants
      = w.store.restaurants := by
  cases session with
  | none => rfl
  | some user =>
    cases hf : findById WaiterOf._id w.store.waiters waiterId <;>
      simp [rateWaiter, hf, WorldOf.saveWaiter, WorldOf.emit]

theorem rateRestaurant_unique (session : Option User) (restaurantId : ObjectId) (rating : Int)
    (now : Date) (w : World) (id : ObjectId) (target : Restaurant)
    (hfind : findById Restaurant._id w.store.restaurants id = some target)
    (huniq : RaterUnique target.ratings) :
    ∃ target', findById Restaurant._id
        (rateRestaurant session restaurantId rating now w).1.store.restaurants id = some target' ∧
      RaterUnique target'.ratings := by
  cases session with
  | none => exact ⟨target, hfind, huniq⟩
  | some user =>
    cases hf : findById Restaurant._id w.store.restaurants restaurantId with
    | none =>
      refine ⟨target, ?_, huniq⟩
      simpa [rateRestaurant, hf, WorldOf.flash, WorldOf.emit] using hfind
    | some restaurant =>
      cases hr : restaurant.ratings.find? (ratedBy user._id) with
      | some r =>
        refine ⟨target, ?_, huniq⟩
        simpa [rateRestaurant, hf, hr, WorldOf.flash, WorldOf.emit] using hfind
      | none =>
        have hkey : restaurant._id = restaurantId := findById_key Restaurant._id _ _ _ hf
        rw [rateRestaurant_restaurants user restaurantId rating now w restaurant hf hr]
        by_cases hid : id = restaurantId
        · subst hid
          have heq : restaurant = target := by
            rw [hf] at hfind
            exact Option.some.inj hfind
          subst heq
          refine ⟨_, findById_replaceById_same Restaurant._id _ _ restaurant _ hf rfl, ?_⟩
          have hn := (find_ratedBy_none user._id restaurant.ratings).mp hr
          simp only [RaterUnique, List.map_append, List.map_cons, List.map_nil]
          refine List.Nodup.append huniq (by simp) ?_
          simpa [List.Disjoint] using hn
        · refine ⟨target, ?_, huniq⟩
          rw [findById_replaceById_other Restaurant._id _ id _ ?_]
          · exact hfind
          · intro e
            exact hid (by rw [← e, ← hkey])

theorem rateWaiter_unique (session : Option User) (waiterId : ObjectId) (rating : Int)
    (restaurantId : ObjectId) (now : Date) (w : World) (id : ObjectId) (target : Waiter)
    (hfind : findById Waiter._id w.store.waiters id = some target)
    (huniq : RaterUnique target.ratings) :
    ∃ target', findById Waiter._id
        (rateWaiter session waiterId rating restaurantId now w).1.store.waiters id = some target' ∧
      RaterUnique target'.ratings := by
  cases session with
  | none => exact ⟨target, hfind, huniq⟩
  | some user =>
    cases hf : findById Waiter._id w.store.waiters waiterId with
    | none =>
      refine ⟨target, ?_, huniq⟩
      simpa [rateWaiter, hf] using hfind
    | some waiter =>
      have hkey : waiter._id = waiterId := findById_key Waiter._id _ _ _ hf
      rw [rateWaiter_waiters user waiterId rating restaurantId now w waiter hf]
      by_cases hid : id = waiterId
      · subst hid
        have heq : waiter = target := by
          rw [hf] at hfind
          exact Option.some.inj hfind
        subst heq
        exact ⟨_, findById_replaceById_same Waiter._id _ _ waiter _ hf rfl,
          upsertWaiterRating_unique waiter.ratings user._id rating now huniq⟩
      · refine ⟨target, ?_, huniq⟩
        rw [findById_replaceById_other Waiter._id _ id _ ?_]
        · exact hfind
        · intro e
          exact hid (by rw [← e, ← hkey])

/-- C4: a target (restaurant or waiter) of the store whose rating sequence
holds each rater identity at most once is still in the store after any
rate-restaurant or rate-waiter call, by any session, with any score, and its
rating sequence still holds each rater identity at most once. -/
theorem rating_preserves_rater_unique (session : Option User) (pathId restaurantId : ObjectId)
    (rating : Int) (now : Date) (w : World) (id : ObjectId) :
    (∀ target, findById Restaurant._id w.store.restaurants id = some target →
      RaterUnique target.ratings →
      (∃ target', findById Restaurant._id
          (rateRestaurant session pathId rating now w).1.store.restaurants id = some target' ∧
        RaterUnique target'.ratings) ∧
      (∃ target', findById Restaurant._id
          (rateWaiter session pathId rating restaurantId now w).1.store.restaurants id
          = some target' ∧
        RaterUnique target'.ratings)) ∧
    (∀ target, findById Waiter._id w.store.waiters id = some target →
      RaterUnique target.ratings →
      (∃ target', findById Waiter._id
          (rateRestaurant session pathId rating now w).1.store.waiters id = some target' ∧
        RaterUnique target'.ratings) ∧
      (∃ target', findById Waiter._id
          (rateWaiter session pathId rating restaurantId now w).1.store.waiters id
          = some target' ∧
        RaterUnique target'.ratings)) := by
  constructor
  · intro target hfind huniq
    refine ⟨rateRestaurant_unique session pathId rating now w id target hfind huniq, ?_⟩
    rw [rateWaiter_restaurants]
    exact ⟨target, hfind, huniq⟩
  · intro target hfind huniq
    refine ⟨?_, rateWaiter_unique session pathId rating restaurantId now w id target hfind huniq⟩
    rw [rateRestaurant_waiters]
    exact ⟨target, hfind, huniq⟩

/-- In `pageWorld` the restaurant `r1` (rated by `u1` and `u2`) and the
waiter `w2` (rated by `u1`, `u2`, `u3`) keep one record per rater when `ann`
(`u1`) rates them again. -/
theorem rating_preserves_rater_unique_witness :
    (∃ target', findById Restaurant._id
        (rateRestaurant (some ann) "r1" 60 9 pageWorld).1.store.restaurants "r1" = some target' ∧
      RaterUnique target'.ratings) ∧
    (∃ target', findById Waiter._id
        (rateWaiter (some ann) "w2" 60 "r1" 9 pageWorld).1.store.waiters "w2" = some target' ∧
      RaterUnique target'.ratings) :=
  ⟨((rating_preserves_rater_unique (some ann) "r1" "r1" 60 9 pageWorld "r1").1
      ⟨"r1", "Bistro A", [⟨80, "u1", 1⟩, ⟨75, "u2", 2⟩], "qr_r1.png"⟩ (by decide) (by decide)).1,
    ((rating_preserves_rater_unique (some ann) "w2" "r1" 60 9 pageWorld "w2").2
      ⟨"w2", "r1", "Cy", "2.png", [⟨70, "u1", 3⟩, ⟨90, "u2", 4⟩, ⟨60, "u3", 5⟩]⟩
      (by decide) (by decide)).2⟩

/-! ## The access gate -/

/-- The create-restaurant handler returns the gate's redirect: without an
admin session it replies with that redirect and touches nothing. -/
theorem createRestaurant_gate (session : Option User) (name : String) (newId : ObjectId)
    (w : World) (h : accessGate session ≠ .Allowed) :
    ∃ redirect, (accessGate session).reply = some redirect ∧
      createRestaurant session name newId w = (w, redirect) := by
  unfold createRestaurant
  cases hg : accessGate session with
  | Allowed => exact absurd hg h
  | RedirectToLogin => exact ⟨_, rfl, rfl⟩
  | RedirectToHome => exact ⟨_, rfl, rfl⟩

/-- C5 (the code departs from the claim): the delete-restaurant, delete-waiter
and save-waiter handlers do not return after the gate's redirect. In
`pageWorld`, without a session the deletion of `r1` sends the redirect to
`/login` and still removes the restaurant and its two waiters; with the
session of `ann` (role `normal`) the deletion of `w1` sends the redirect to
`/` and still removes the waiter; without a session the save-waiter handler
still stores a new waiter. -/
theorem gate_not_enforced :
    accessGate none = .RedirectToLogin ∧
    accessGate (some ann) = .RedirectToHome ∧
    (deleteRestaurant none "r1" pageWorld).2 = .redirect "/login" ∧
    pageWorld.store.restaurants.map (fun r => r._id) = ["r1"] ∧
    pageWorld.store.waiters.map (fun x => x._id) = ["w1", "w2"] ∧
    (deleteRestaurant none "r1" pageWorld).1.store.restaurants = [] ∧
    (deleteRestaurant none "r1" pageWorld).1.store.waiters = [] ∧
    (deleteWaiter (some ann) "w1" pageWorld).2 = .redirect "/" ∧
    (deleteWaiter (some ann) "w1" pageWorld).1.store.waiters.map (fun x => x._id) = ["w2"] ∧
    (saveWaiter none (.stored (some "9.png")) "Zed" "r1" "w9" pageWorld).2 = .redirect "/login" ∧
    (saveWaiter none (.stored (some "9.png")) "Zed" "r1" "w9" pageWorld).1.store.waiters.map
      (fun x => x._id) = ["w1", "w2", "w9"] := by
  decide

/-! ## Restore into a populated store -/

/-- C6: when one of the three collections is not empty, load-backup sends the
already-populated message and returns the world as it was: no collection
changes, no file is read (the log gains no event). -/
theorem loadbackup_populated (w : World)
    (h : w.store.restaurants ≠ [] ∨ w.store.users ≠ [] ∨ w.store.waiters ≠ []) :
    loadbackup w =
      (w, .send 200 "Data already exists in the database. Skipping loading backup data.") := by
  have hc : (w.store.restaurants.length > 0 || w.store.users.length > 0
      || w.store.waiters.length > 0) = true := by
    simp only [gt_iff_lt, List.length_pos, Bool.or_eq_true, decide_eq_true_eq]
    tauto
  unfold loadbackup
  simp only [hc, if_true]

/-- In `pageWorld`, whose collections are populated, load-backup refuses; the
store and the log are those of `pageWorld`. -/
theorem loadbackup_populated_witness :
    (loadbackup pageWorld).2 =
        .send 200 "Data already exists in the database. Skipping loading backup data." ∧
      (loadbackup pageWorld).1.store = pageWorld.store ∧
      (loadbackup pageWorld).1.log = [] :=
  ⟨congrArg Prod.snd (loadbackup_populated pageWorld (Or.inl (by decide))),
    congrArg (fun p => p.1.store) (loadbackup_populated pageWorld (Or.inl (by decide))),
    congrArg (fun p => p.1.log) (loadbackup_populated pageWorld (Or.inl (by decide)))⟩

/-! ## Backup then restore -/

theorem castAll_map {α : Type} (cast : JsonValue → Option α) (toJson : α → JsonValue)
    (docs : List α) (h : ∀ a ∈ docs, cast (toJson a) = some a) :
    castAll cast (docs.map toJson) = some docs := by
  induction docs with
  | nil => rfl
  | cons d ds ih =>
    have hd := h d (List.mem_cons_self _ _)
    have hds := ih (fun a ha => h a (List.mem_cons_of_mem _ ha))
    simp [castAll, hd, hds]

theorem castNumber_toJson (s : Score) (h : s.NotInfinite) : castNumber s.toJson = some s := by
  cases s with
  | finite q => rfl
  | posInf => exact absurd h (by simp [Score.NotInfinite])
  | negInf => exact absurd h (by simp [Score.NotInfinite])
  | null => rfl

theorem castDate_num (d : Date) : castDate (.num (d : ℚ)) = some d := by
  simp [castDate]

theorem castRating_toJson (r : RatingOf Score) (h : r.rating.NotInfinite) :
    castRating r.toJson = some r := by
  have hn : (NumberPath.cast (NumberPath.write r.rating) : Option Score) = some r.rating :=
    castNumber_toJson r.rating h
  simp [castRating, RatingOf.toJson, JsonValue.getField, castString, castDate_num, hn]

theorem castRatings_toJson (ratings : List (RatingOf Score))
    (h : ∀ x ∈ ratings, x.rating.NotInfinite) :
    castAll castRating (ratings.map RatingOf.toJson) = some ratings :=
  castAll_map castRating RatingOf.toJson ratings (fun x hx => castRating_toJson x (h x hx))

theorem castRestaurant_toJson (r : RestaurantOf Score)
    (h : ∀ x ∈ r.ratings, x.rating.NotInfinite) : castRestaurant r.toJson = some r := by
  simp [castRestaurant, RestaurantOf.toJson, JsonValue.getField, castString, castArray,
    castRatings_toJson r.ratings h]

theorem castUser_toJson (u : User) : castUser u.toJson = some u := by
  simp [castUser, User.toJson, JsonValue.getField, castString]

theorem castWaiter_toJson (x : WaiterOf Score) (h : ∀ y ∈ x.ratings, y.rating.NotInfinite) :
    castWaiter x.toJson = some x := by
  simp [castWaiter, WaiterOf.toJson, JsonValue.getField, castString, castArray,
    castRatings_toJson x.ratings h]

theorem backupDir_eq : pathJoin ["backup"] = "backup" := by decide

theorem restaurantsPath_eq : pathJoin ["backup", "restaurants.json"] = "backup/restaurants.json" := by
  decide

theorem usersPath_eq : pathJoin ["backup", "users.json"] = "backup/users.json" := by decide

theorem waitersPath_eq : pathJoin ["backup", "waiters.json"] = "backup/waiters.json" := by decide

theorem backup_files {σ : Type} [NumberPath σ] (w : WorldOf σ) :
    (backup w).1.store = w.store ∧
    (backup w).1.fs.lookup "backup/restaurants.json"
      = some (.json (.arr (w.store.restaurants.map RestaurantOf.toJson))) ∧
    (backup w).1.fs.lookup "backup/users.json"
      = some (.json (.arr (w.store.users.map User.toJson))) ∧
    (backup w).1.fs.lookup "backup/waiters.json"
      = some (.json (.arr (w.store.waiters.map WaiterOf.toJson))) := by
  unfold backup
  simp only [backupDir_eq, restaurantsPath_eq, usersPath_eq, waitersPath_eq]
  by_cases hd : "backup" ∈ w.fs.dirs <;>
    simp [hd, WorldOf.writeFile, WorldOf.mkdir, WorldOf.emit, FileSys.lookup, List.find?_cons]

theorem readJson_of_lookup {σ : Type} (w : WorldOf σ) (path : String) (doc : JsonValue)
    (h : w.fs.lookup path = some (.json doc)) :
    w.readJson path = (some doc, w.emit (.readFile path)) := by
  simp [WorldOf.readJson, WorldOf.readFile, h]

theorem insertManyRestaurants_toJson (w : WorldOf Score) (docs : List (RestaurantOf Score))
    (h : ∀ r ∈ docs, ∀ x ∈ r.ratings, x.rating.NotInfinite) :
    w.insertManyRestaurants (.arr (docs.map RestaurantOf.toJson)) =
      some ({ w with store := { w.store with
          restaurants := w.store.restaurants ++ docs } }.emit
        (.insertMany "Restaurant" docs.length)) := by
  simp [WorldOf.insertManyRestaurants, castArray,
    castAll_map castRestaurant RestaurantOf.toJson docs
      (fun r hr => castRestaurant_toJson r (h r hr))]

theorem insertManyUsers_toJson {σ : Type} (w : WorldOf σ) (docs : List User) :
    w.insertManyUsers (.arr (docs.map User.toJson)) =
      some ({ w with store := { w.store with users := w.store.users ++ docs } }.emit
        (.insertMany "User" docs.length)) := by
  simp [WorldOf.insertManyUsers, castArray,
    castAll_map castUser User.toJson docs (fun u _ => castUser_toJson u)]

theorem insertManyWaiters_toJson (w : WorldOf Score) (docs : List (WaiterOf Score))
    (h : ∀ y ∈ docs, ∀ x ∈ y.ratings, x.rating.NotInfinite) :
    w.insertManyWaiters (.arr (docs.map WaiterOf.toJson)) =
      some ({ w with store := { w.store with waiters := w.store.waiters ++ docs } }.emit
        (.insertMany "Waiter" docs.length)) := by
  simp [WorldOf.insertManyWaiters, castArray,
    castAll_map castWaiter WaiterOf.toJson docs (fun y hy => castWaiter_toJson y (h y hy))]

/-- C7 (as stated) fails: a score can be an infinity, which `JSON.stringify`
writes as `null`. In `infinityWorld` the waiter `w1` holds the score Infinity
that the rate-waiter call of `ann` with the path parameter "Infinity" stored;
backup followed by load-backup on the emptied store reports success and
yields the waiter `w1` with the score `null`, so the store is not the one that
was backed up. -/
theorem infinite_score_not_restored :
    findById WaiterOf._id infinityWorld.store.waiters "w1"
        = some ⟨"w1", "r1", "Bob", "1.png", [⟨.posInf, "u1", 9⟩]⟩ ∧
      (loadbackup ({ (backup infinityWorld).1 with store := emptyStore } : WorldOf Score)).2
        = .send 200 "Backup data loaded successfully." ∧
      findById WaiterOf._id
          (loadbackup ({ (backup infinityWorld).1 with store := emptyStore } : WorldOf Score)).1.store.waiters "w1"
        = some ⟨"w1", "r1", "Bob", "1.png", [⟨.null, "u1", 9⟩]⟩ ∧
      (loadbackup ({ (backup infinityWorld).1 with store := emptyStore } : WorldOf Score)).1.store
        ≠ infinityWorld.store := by
  decide!

/-- C7 (as amended): for every state in which no rating record holds an
infinite score, running backup and then load-backup on the emptied store
(with the files backup wrote) reports success and yields a store equal to the
one backed up: the same restaurants, users and waiters, in the same order,
with the same field values and embedded rating records. Backup itself leaves
the store as it was. -/
theorem backup_loadbackup_roundtrip (w : WorldOf Score) (h : NoInfiniteScore w.store) :
    (backup w).2 = .send 200 "Backup created successfully!" ∧
    (backup w).1.store = w.store ∧
    (loadbackup ({ (backup w).1 with store := emptyStore } : WorldOf Score)).2
      = .send 200 "Backup data loaded successfully." ∧
    (loadbackup ({ (backup w).1 with store := emptyStore } : WorldOf Score)).1.store = w.store := by
  obtain ⟨hs, hr, hu, hw⟩ := backup_files w
  refine ⟨rfl, hs, ?_⟩
  have hr2 : ({ (backup w).1 with store := emptyStore } : WorldOf Score).fs.lookup
      "backup/restaurants.json" = _ := hr
  have key : loadbackup ({ (backup w).1 with store := emptyStore } : WorldOf Score) =
      (((({ (backup w).1 with store := w.store } : WorldOf Score).emit
          (.readFile "backup/restaurants.json")).emit (.readFile "backup/users.json")).emit
          (.readFile "backup/waiters.json") |>.emit
          (.insertMany "Restaurant" w.store.restaurants.length) |>.emit
          (.insertMany "User" w.store.users.length) |>.emit
          (.insertMany "Waiter" w.store.waiters.length),
        .send 200 "Backup data loaded successfully.") := by
    unfold loadbackup
    simp only [backupDir_eq, restaurantsPath_eq, usersPath_eq, waitersPath_eq]
    rw [readJson_of_lookup _ _ _ hr2]
    simp only [emptyStore, List.length_nil, gt_iff_lt, lt_self_iff_false, decide_False,
      Bool.or_self, Bool.false_eq_true, if_false]
    rw [readJson_of_lookup _ "backup/users.json" _ (by simpa [WorldOf.emit] using hu)]
    simp only []
    rw [readJson_of_lookup _ "backup/waiters.json" _ (by simpa [WorldOf.emit] using hw)]
    simp [insertManyRestaurants_toJson _ _ h.1, insertManyUsers_toJson,
      insertManyWaiters_toJson _ _ h.2, WorldOf.emit]
  rw [key]
  exact ⟨rfl, rfl⟩

/-- In `fractionWorld` the waiter `w1` holds the score 1.5 that the
rate-waiter call of `ann` with the path parameter "1.5" stored; no score is
infinite and the store comes back as it was. -/
theorem backup_loadbackup_roundtrip_witness :
    findById WaiterOf._id fractionWorld.store.waiters "w1"
        = some ⟨"w1", "r1", "Bob", "1.png", [⟨.finite (3 / 2), "u1", 9⟩]⟩ ∧
      (loadbackup ({ (backup fractionWorld).1 with store := emptyStore } : WorldOf Score)).1.store
        = fractionWorld.store :=
  ⟨by decide!, (backup_loadbackup_roundtrip fractionWorld (by decide!)).2.2.2⟩

/-! ## Cascading deletion -/

theorem deleteById_eq_filter {α : Type} (key : α → ObjectId) (docs : List α) (id : ObjectId)
    (h : (docs.map key).Nodup) :
    deleteById key docs id = docs.filter (fun d => key d != id) := by
  induction docs with
  | nil => rfl
  | cons d ds ih =>
    simp only [List.map_cons, List.nodup_cons] at h
    by_cases hd : key d = id
    · have hall : ∀ x ∈ ds, (key x != id) = true := by
        intro x hx
        have : key x ≠ id := by
          intro e
          exact h.1 (List.mem_map.mpr ⟨x, hx, by rw [e, hd]⟩)
        simpa using this
      simp [deleteById, List.eraseP_cons, hd, List.filter_cons, List.filter_eq_self.mpr hall]
    · have := ih h.2
      simp only [deleteById] at this
      simp [deleteById, List.eraseP_cons, hd, List.filter_cons, this]

theorem nodup_filter_key {α : Type} (key : α → ObjectId) (docs : List α) (p : α → Bool)
    (h : (docs.map key).Nodup) : ((docs.filter p).map key).Nodup :=
  h.sublist ((List.filter_sublist docs).map key)

theorem foldl_deleteById {α : Type} (key : α → ObjectId) (gone docs : List α)
    (h : (docs.map key).Nodup) :
    gone.foldl (fun l x => deleteById key l (key x)) docs
      = docs.filter (fun d => !decide (key d ∈ gone.map key)) := by
  induction gone generalizing docs with
  | nil => simp
  | cons x xs ih =>
    simp only [List.foldl_cons]
    rw [deleteById_eq_filter key docs (key x) h, ih _ (nodup_filter_key key docs _ h),
      List.filter_filter]
    apply List.filter_congr
    intro d _
    by_cases h1 : key d = key x <;> simp [h1]

theorem unlink_store_log (w : World) (path : String) :
    (w.unlink path).2.store = w.store ∧ (w.unlink path).2.log = w.log ++ [.unlink path] := by
  unfold WorldOf.unlink
  cases hf : w.fs.unlinkFaults.find? (fun f => f.1 == path) with
  | some fault => exact ⟨rfl, rfl⟩
  | none =>
    cases hl : w.fs.lookup path with
    | none => exact ⟨rfl, rfl⟩
    | some c => exact ⟨rfl, rfl⟩

theorem cascadeWaiter_spec (w : World) (x : Waiter) :
    (cascadeWaiter w x).store =
        { w.store with waiters := deleteById Waiter._id w.store.waiters x._id } ∧
      (cascadeWaiter w x).log =
        w.log ++ [.unlink (pathJoin ["..", "public/uploads/waiters", x.picture])] ++
          cascadeCatchLog (w.unlink (pathJoin ["..", "public/uploads/waiters", x.picture])).1 ++
          [.findByIdAndDelete "Waiter" x._id] := by
  obtain ⟨hs, hl⟩ := unlink_store_log w (pathJoin ["..", "public/uploads/waiters", x.picture])
  simp only [cascadeWaiter]
  generalize w.unlink (pathJoin ["..", "public/uploads/waiters", x.picture]) = res at hs hl ⊢
  obtain ⟨err, w1⟩ := res
  simp only at hs hl
  cases err with
  | none => simp [cascadeCatchLog, WorldOf.deleteWaiter, WorldOf.emit, hs, hl]
  | some code =>
    by_cases hc : code = "ENOENT"
    · simp [cascadeCatchLog, WorldOf.deleteWaiter, WorldOf.emit, hs, hl, hc]
    · simp [cascadeCatchLog, WorldOf.deleteWaiter, WorldOf.emit, WorldOf.consoleError, hs, hl, hc]

theorem foldl_cascadeWaiter (gone : List Waiter) (w : World) :
    (gone.foldl cascadeWaiter w).store =
        { w.store with
          waiters := gone.foldl (fun l x => deleteById Waiter._id l x._id) w.store.waiters } ∧
      ∃ pre, (gone.foldl cascadeWaiter w).log = w.log ++ pre ∧
        (∀ x ∈ gone, Event.findByIdAndDelete "Waiter" x._id ∈ pre) ∧
        (∀ id, Event.findByIdAndDelete "Restaurant" id ∉ pre) := by
  induction gone generalizing w with
  | nil => exact ⟨rfl, [], by simp, by simp, by simp⟩
  | cons x xs ih =>
    obtain ⟨hs, hl⟩ := cascadeWaiter_spec w x
    obtain ⟨ihs, pre, ihl, ihmem, ihnot⟩ := ih (cascadeWaiter w x)
    simp only [List.foldl_cons]
    refine ⟨?_, ?_⟩
    · rw [ihs, hs]
    · refine ⟨[.unlink (pathJoin ["..", "public/uploads/waiters", x.picture])] ++
          cascadeCatchLog (w.unlink (pathJoin ["..", "public/uploads/waiters", x.picture])).1 ++
          [.findByIdAndDelete "Waiter" x._id] ++ pre, ?_, ?_, ?_⟩
      · rw [ihl, hl]
        simp [List.append_assoc]
      · intro y hy
        rcases List.mem_cons.mp hy with rfl | hy
        · simp
        · exact List.mem_append_right _ (ihmem y hy)
      · intro id hmem
        simp only [List.mem_append, List.mem_singleton, List.mem_cons, List.mem_nil_iff,
          or_false] at hmem
        rcases hmem with ((h | h) | h) | h
        · simp at h
        · unfold cascadeCatchLog at h
          split at h
          · split at h
            · simp at h
            · simp at h
          · simp at h
        · simp at h
        · exact ihnot id h

theorem mem_filter_ids (docs : List Waiter) (restaurantId : ObjectId)
    (h : (docs.map Waiter._id).Nodup) (d : Waiter) (hd : d ∈ docs) :
    d._id ∈ (docs.filter (fun x => x.restaurant_id == restaurantId)).map Waiter._id
      ↔ d.restaurant_id = restaurantId := by
  constructor
  · intro hm
    obtain ⟨e, he, hk⟩ := List.mem_map.mp hm
    obtain ⟨he1, he2⟩ := List.mem_filter.mp he
    have : e = d := List.inj_on_of_nodup_map h he1 hd hk
    subst this
    simpa using he2
  · intro hr
    exact List.mem_map.mpr ⟨d, List.mem_filter.mpr ⟨hd, by simpa using hr⟩, rfl⟩

/-- C8: in a store whose documents have distinct `_id`s, after the deletion
of restaurant `restaurantId` (which an admin session sees answered by the
redirect to the restaurant list) the restaurants are those of before with
another identity, the waiters are those of before that reference another
restaurant, the users are untouched; no restaurant with that identity and no
waiter referencing it is left; and in the log the deletion of the restaurant
record comes last, after the deletion of every waiter that referenced it. -/
theorem deleteRestaurant_cascades (session : Option User) (restaurantId : ObjectId) (w : World)
    (hr : (w.store.restaurants.map Restaurant._id).Nodup)
    (hw : (w.store.waiters.map Waiter._id).Nodup) :
    (accessGate session = .Allowed →
      (deleteRestaurant session restaurantId w).2 = .redirect "/admin/restaurants") ∧
    (deleteRestaurant session restaurantId w).1.store.restaurants
      = w.store.restaurants.filter (fun r => r._id != restaurantId) ∧
    (deleteRestaurant session restaurantId w).1.store.waiters
      = w.store.waiters.filter (fun x => x.restaurant_id != restaurantId) ∧
    (deleteRestaurant session restaurantId w).1.store.users = w.store.users ∧
    (∀ r ∈ (deleteRestaurant session restaurantId w).1.store.restaurants,
      r._id ≠ restaurantId) ∧
    (∀ x ∈ (deleteRestaurant session restaurantId w).1.store.waiters,
      x.restaurant_id ≠ restaurantId) ∧
    ∃ pre, (deleteRestaurant session restaurantId w).1.log
        = w.log ++ pre ++ [.findByIdAndDelete "Restaurant" restaurantId] ∧
      (∀ x ∈ w.store.waiters, x.restaurant_id = restaurantId →
        Event.findByIdAndDelete "Waiter" x._id ∈ pre) ∧
      (∀ id, Event.findByIdAndDelete "Restaurant" id ∉ pre) := by
  obtain ⟨hs, pre, hl, hmem, hnot⟩ := foldl_cascadeWaiter
    (w.store.waiters.filter (fun x => x.restaurant_id == restaurantId)) w
  have hrest : (deleteRestaurant session restaurantId w).1.store.restaurants
      = w.store.restaurants.filter (fun r => r._id != restaurantId) := by
    simp only [deleteRestaurant, WorldOf.deleteRestaurant, WorldOf.emit, hs]
    exact deleteById_eq_filter Restaurant._id _ _ hr
  have hwait : (deleteRestaurant session restaurantId w).1.store.waiters
      = w.store.waiters.filter (fun x => x.restaurant_id != restaurantId) := by
    simp only [deleteRestaurant, WorldOf.deleteRestaurant, WorldOf.emit, hs]
    rw [foldl_deleteById Waiter._id _ _ hw]
    apply List.filter_congr
    intro d hd
    have := mem_filter_ids w.store.waiters restaurantId hw d hd
    by_cases h1 : d.restaurant_id = restaurantId
    · simp [h1, this.mpr h1]
    · have h2 : ¬ d._id ∈ (w.store.waiters.filter
          (fun x => x.restaurant_id == restaurantId)).map Waiter._id := fun hm => h1 (this.mp hm)
      simp [h1, h2]
  refine ⟨?_, hrest, hwait, ?_, ?_, ?_, pre, ?_, ?_, hnot⟩
  · intro hg
    simp [deleteRestaurant, hg, GateOutcome.reply, respond]
  · simp only [deleteRestaurant, WorldOf.deleteRestaurant, WorldOf.emit, hs]
  · intro r hmem2
    rw [hrest] at hmem2
    simpa using (List.mem_filter.mp hmem2).2
  · intro x hmem2
    rw [hwait] at hmem2
    simpa using (List.mem_filter.mp hmem2).2
  · simp only [deleteRestaurant, WorldOf.deleteRestaurant, WorldOf.emit, hl]
  · intro x hx hxr
    exact hmem x (List.mem_filter.mpr ⟨hx, by simpa using hxr⟩)

/-- In `cascadeWorld` the admin deletes `r1`: `r2` and its waiter `w2` are
what is left. -/
theorem deleteRestaurant_cascades_witness :
    (deleteRestaurant (some root) "r1" cascadeWorld).1.store.restaurants
        = cascadeWorld.store.restaurants.filter (fun r => r._id != "r1") ∧
      (deleteRestaurant (some root) "r1" cascadeWorld).1.store.restaurants.map (fun r => r._id)
        = ["r2"] ∧
      (deleteRestaurant (some root) "r1" cascadeWorld).1.store.waiters.map (fun x => x._id)
        = ["w2"] :=
  ⟨(deleteRestaurant_cascades (some root) "r1" cascadeWorld (by decide) (by decide)).2.1,
    by decide, by decide⟩

/-! ## Restaurant creation -/

theorem qrName_injective (a b : ObjectId) (h : "qr_" ++ a ++ ".png" = "qr_" ++ b ++ ".png") :
    a = b := by
  have h1 := congrArg String.data h
  simp only [String.data_append] at h1
  exact String.ext (List.append_cancel_left (List.append_cancel_right h1))

theorem qrUrl_injective (a b : ObjectId)
    (h : "http://localhost:3000/restaurants/" ++ a = "http://localhost:3000/restaurants/" ++ b) :
    a = b := by
  have h1 := congrArg String.data h
  simp only [String.data_append] at h1
  exact String.ext (List.append_cancel_left h1)

theorem QrWellFormed.nodup_qrCode {σ : Type} (restaurants : List (RestaurantOf σ))
    (h : QrWellFormed restaurants) : (restaurants.map (fun r => r.qrCode)).Nodup := by
  have hmap : restaurants.map (fun r => r.qrCode)
      = (restaurants.map RestaurantOf._id).map (fun id => "qr_" ++ id ++ ".png") := by
    rw [List.map_map]
    exact List.map_congr_left (fun r hr => h.2 r hr)
  rw [hmap]
  exact h.1.map (fun a b hab => qrName_injective a b hab)

theorem find_name_none {σ : Type} (restaurants : List (RestaurantOf σ)) (name : String) :
    restaurants.find? (fun r => r.name == name) = none ↔ ∀ r ∈ restaurants, r.name ≠ name := by
  simp [List.find?_eq_none]

theorem qrDir_eq : pathJoin ["public", "images", "qrcodes"] = "public/images/qrcodes" := by decide

theorem pathJoin_pair (a b : String) : pathJoin [a, b] = a ++ "/" ++ b := by
  simp [pathJoin, String.intercalate, String.intercalate.go]

theorem createRestaurant_taken {σ : Type} (session : Option User) (name : String)
    (newId : ObjectId) (w : WorldOf σ) (hg : accessGate session = .Allowed)
    (h : ∃ r ∈ w.store.restaurants, r.name = name) :
    createRestaurant session name newId w =
      (w.flash "error" "Restaurant name already exists.", .redirect "/admin/restaurants/new") := by
  cases hf : w.store.restaurants.find? (fun r => r.name == name) with
  | none =>
    obtain ⟨r, hr, hn⟩ := h
    exact absurd hn ((find_name_none _ _).mp hf r hr)
  | some r => simp [createRestaurant, hg, GateOutcome.reply, hf]

theorem createRestaurant_created {σ : Type} (session : Option User) (name : String)
    (newId : ObjectId) (w : WorldOf σ) (hg : accessGate session = .Allowed)
    (h : ∀ r ∈ w.store.restaurants, r.name ≠ name)
    (hdir : "public/images/qrcodes" ∈ w.fs.dirs) :
    createRestaurant session name newId w =
      ({ store := { w.store with
            restaurants := w.store.restaurants ++
              [⟨newId, name, [], "qr_" ++ newId ++ ".png"⟩] },
          fs := { w.fs with
            files := ("public/images/qrcodes" ++ "/" ++ ("qr_" ++ newId ++ ".png"),
                .qrImage ("http://localhost:3000/restaurants/" ++ newId)) ::
              w.fs.files.filter
                (fun f => f.1 != "public/images/qrcodes" ++ "/" ++ ("qr_" ++ newId ++ ".png")) },
          log := w.log ++
            [.qrToFile ("public/images/qrcodes" ++ "/" ++ ("qr_" ++ newId ++ ".png"))
                ("http://localhost:3000/restaurants/" ++ newId),
              .save "Restaurant" newId,
              .flash "success" "Restaurant added successfully."] },
        .redirect "/admin/restaurants/new") := by
  have hf := (find_name_none _ _).mpr h
  simp [createRestaurant, hg, GateOutcome.reply, hf, WorldOf.qrToFile, qrDir_eq, hdir,
    pathJoin_pair, qrCodeFileName, qrCodeData, WorldOf.insertRestaurant, WorldOf.flash,
    WorldOf.emit]

theorem createRestaurant_failed {σ : Type} (session : Option User) (name : String)
    (newId : ObjectId) (w : WorldOf σ) (hg : accessGate session = .Allowed)
    (h : ∀ r ∈ w.store.restaurants, r.name ≠ name)
    (hdir : "public/images/qrcodes" ∉ w.fs.dirs) :
    createRestaurant session name newId w =
      ({ w with
          log := w.log ++
            [.qrToFile ("public/images/qrcodes" ++ "/" ++ ("qr_" ++ newId ++ ".png"))
                ("http://localhost:3000/restaurants/" ++ newId),
              .flash "error" ("Error adding restaurant: " ++
                ("ENOENT: no such file or directory, open '" ++
                  ("public/images/qrcodes" ++ "/" ++ ("qr_" ++ newId ++ ".png")) ++ "'"))] },
        .redirect "/admin/restaurants/new") := by
  have hf := (find_name_none _ _).mpr h
  simp [createRestaurant, hg, GateOutcome.reply, hf, WorldOf.qrToFile, qrDir_eq, hdir,
    pathJoin_pair, qrCodeFileName, qrCodeData, WorldOf.flash, WorldOf.emit]

/-- C9 (as stated) fails: `QRCode.toFile` can fail, and then nothing is
added. In `pageWorld` no restaurant is called "Bistro B" and the directory
`public/images/qrcodes` does not exist; the admin's create-restaurant call
flashes "Error adding restaurant: ..." and the restaurants collection is the
one of before. -/
theorem createRestaurant_without_qr_directory :
    (∀ r ∈ pageWorld.store.restaurants, r.name ≠ "Bistro B") ∧
      accessGate (some root) = .Allowed ∧
      (createRestaurant (some root) "Bistro B" "r9" pageWorld).1.store.restaurants
        = pageWorld.store.restaurants ∧
      (createRestaurant (some root) "Bistro B" "r9" pageWorld).1.log
        = [.qrToFile "public/images/qrcodes/qr_r9.png" "http://localhost:3000/restaurants/r9",
            .flash "error"
              "Error adding restaurant: ENOENT: no such file or directory, open 'public/images/qrcodes/qr_r9.png'"] := by
  decide

/-- C9 (as amended), for an admin session. If a restaurant with the name
exists the create-restaurant handler flashes "Restaurant name already
exists." and does nothing else (no QR file, no change of the store).
Otherwise, when the directory `public/images/qrcodes` exists, it writes the
QR image of the URL `http://localhost:3000/restaurants/<id>` to
`public/images/qrcodes/qr_<id>.png` and adds exactly one restaurant, with
that name, no ratings and the QR reference `qr_<id>.png`; when the directory
does not exist, writing the image fails, the failure is flashed and the store
and the files are unchanged. The QR reference and the URL are injective in
the identity; pairwise distinct names stay pairwise distinct, and restaurants
that carry the QR reference of their own distinct identities keep doing so,
hence have pairwise distinct QR references, when the new identity is fresh. -/
theorem createRestaurant_unique_name {σ : Type} (session : Option User) (name : String)
    (newId : ObjectId) (w : WorldOf σ) (hg : accessGate session = .Allowed) :
    ((∃ r ∈ w.store.restaurants, r.name = name) →
      (createRestaurant session name newId w).2 = .redirect "/admin/restaurants/new" ∧
      (createRestaurant session name newId w).1.log
        = w.log ++ [.flash "error" "Restaurant name already exists."] ∧
      (createRestaurant session name newId w).1.store = w.store ∧
      (createRestaurant session name newId w).1.fs = w.fs) ∧
    ((∀ r ∈ w.store.restaurants, r.name ≠ name) → "public/images/qrcodes" ∈ w.fs.dirs →
      (createRestaurant session name newId w).2 = .redirect "/admin/restaurants/new" ∧
      (createRestaurant session name newId w).1.log
        = w.log ++
          [.qrToFile ("public/images/qrcodes" ++ "/" ++ ("qr_" ++ newId ++ ".png"))
              ("http://localhost:3000/restaurants/" ++ newId),
            .save "Restaurant" newId,
            .flash "success" "Restaurant added successfully."] ∧
      (createRestaurant session name newId w).1.fs.lookup
          ("public/images/qrcodes" ++ "/" ++ ("qr_" ++ newId ++ ".png"))
        = some (.qrImage ("http://localhost:3000/restaurants/" ++ newId)) ∧
      (createRestaurant session name newId w).1.store.restaurants
        = w.store.restaurants ++ [⟨newId, name, [], "qr_" ++ newId ++ ".png"⟩] ∧
      (createRestaurant session name newId w).1.store.users = w.store.users ∧
      (createRestaurant session name newId w).1.store.waiters = w.store.waiters) ∧
    ((∀ r ∈ w.store.restaurants, r.name ≠ name) → "public/images/qrcodes" ∉ w.fs.dirs →
      (createRestaurant session name newId w).2 = .redirect "/admin/restaurants/new" ∧
      (∃ message, (createRestaurant session name newId w).1.log
        = w.log ++
          [.qrToFile ("public/images/qrcodes" ++ "/" ++ ("qr_" ++ newId ++ ".png"))
              ("http://localhost:3000/restaurants/" ++ newId),
            .flash "error" ("Error adding restaurant: " ++ message)]) ∧
      (createRestaurant session name newId w).1.store = w.store ∧
      (createRestaurant session name newId w).1.fs = w.fs) ∧
    ((w.store.restaurants.map (fun r => r.name)).Nodup →
      ((createRestaurant session name newId w).1.store.restaurants.map
        (fun r => r.name)).Nodup) ∧
    (QrWellFormed w.store.restaurants → newId ∉ w.store.restaurants.map RestaurantOf._id →
      QrWellFormed (createRestaurant session name newId w).1.store.restaurants ∧
      ((createRestaurant session name newId w).1.store.restaurants.map
        (fun r => r.qrCode)).Nodup) ∧
    (∀ a b : ObjectId, "qr_" ++ a ++ ".png" = "qr_" ++ b ++ ".png" → a = b) ∧
    (∀ a b : ObjectId, "http://localhost:3000/restaurants/" ++ a
      = "http://localhost:3000/restaurants/" ++ b → a = b) := by
  have htaken : (∃ r ∈ w.store.restaurants, r.name = name) →
      createRestaurant session name newId w =
        (w.flash "error" "Restaurant name already exists.",
          .redirect "/admin/restaurants/new") :=
    createRestaurant_taken session name newId w hg
  have hcreated := createRestaurant_created session name newId w hg
  have hfailed := createRestaurant_failed session name newId w hg
  have hrest : (createRestaurant session name newId w).1.store.restaurants = w.store.restaurants ∨
      (createRestaurant session name newId w).1.store.restaurants
        = w.store.restaurants ++ [⟨newId, name, [], "qr_" ++ newId ++ ".png"⟩] ∧
        ∀ r ∈ w.store.restaurants, r.name ≠ name := by
    by_cases h : ∃ r ∈ w.store.restaurants, r.name = name
    · left
      rw [htaken h]
      rfl
    · have h2 : ∀ r ∈ w.store.restaurants, r.name ≠ name := fun r hr e => h ⟨r, hr, e⟩
      by_cases hdir : "public/images/qrcodes" ∈ w.fs.dirs
      · right
        rw [hcreated h2 hdir]
        exact ⟨rfl, h2⟩
      · left
        rw [hfailed h2 hdir]
  refine ⟨?_, ?_, ?_, ?_, ?_, qrName_injective, qrUrl_injective⟩
  · intro h
    rw [htaken h]
    exact ⟨rfl, rfl, rfl, rfl⟩
  · intro h hdir
    rw [hcreated h hdir]
    refine ⟨rfl, rfl, ?_, rfl, rfl, rfl⟩
    simp [FileSys.lookup]
  · intro h hdir
    rw [hfailed h hdir]
    exact ⟨rfl, ⟨_, rfl⟩, rfl, rfl⟩
  · intro hn
    rcases hrest with hr | ⟨hr, h2⟩
    · rw [hr]
      exact hn
    · rw [hr]
      simp only [List.map_append, List.map_cons, List.map_nil]
      refine List.Nodup.append hn (by simp) ?_
      simp only [List.disjoint_singleton, List.mem_map, not_exists, not_and]
      exact fun r hr => h2 r hr
  · intro hq hid
    have key : QrWellFormed (createRestaurant session name newId w).1.store.restaurants := by
      rcases hrest with hr | ⟨hr, -⟩
      · rw [hr]
        exact hq
      · rw [hr]
        constructor
        · simp only [List.map_append, List.map_cons, List.map_nil]
          refine List.Nodup.append hq.1 (by simp) ?_
          simpa [List.disjoint_singleton] using hid
        · intro r hr
          rcases List.mem_append.mp hr with hr | hr
          · exact hq.2 r hr
          · rw [List.mem_singleton.mp hr]
    exact ⟨key, QrWellFormed.nodup_qrCode _ key⟩

/-- The scenario of the specification, in `freshWorld` (where the directory of
the QR images exists): the admin creates "Bistro A" (identity `r1`), which
gets the QR reference `qr_r1.png`; creating "Bistro A" again (identity `r2`
drawn) is refused and the collection keeps its one restaurant. -/
theorem createRestaurant_unique_name_witness :
    (createRestaurant (some root) "Bistro A" "r1" freshWorld).1.store.restaurants
        = [] ++ [⟨"r1", "Bistro A", [], "qr_" ++ "r1" ++ ".png"⟩] ∧
      (createRestaurant (some root) "Bistro A" "r1" freshWorld).1.store.restaurants
        = [⟨"r1", "Bistro A", [], "qr_r1.png"⟩] ∧
      (createRestaurant (some root) "Bistro A" "r2"
          (createRestaurant (some root) "Bistro A" "r1" freshWorld).1).1.store
        = (createRestaurant (some root) "Bistro A" "r1" freshWorld).1.store ∧
      (createRestaurant (some root) "Bistro A" "r2"
          (createRestaurant (some root) "Bistro A" "r1" freshWorld).1).1.log
        = (createRestaurant (some root) "Bistro A" "r1" freshWorld).1.log ++
          [.flash "error" "Restaurant name already exists."] :=
  ⟨((createRestaurant_unique_name (some root) "Bistro A" "r1" freshWorld (by decide)).2.1
      (by decide) (by decide)).2.2.2.1,
    by decide,
    ((createRestaurant_unique_name (some root) "Bistro A" "r2"
      (createRestaurant (some root) "Bistro A" "r1" freshWorld).1 (by decide)).1
      (by decide)).2.2.1,
    ((createRestaurant_unique_name (some root) "Bistro A" "r2"
      (createRestaurant (some root) "Bistro A" "r1" freshWorld).1 (by decide)).1
      (by decide)).2.1⟩

/-! ## Photo-release errors during deletion -/

/-- C10 (as stated) fails for the cascade: in `cascadeWorld` the picture of
waiter `w1` of restaurant `r1` cannot be removed (EACCES, not ENOENT), and the
deletion of `r1` by the admin still answers with the success redirect; the
failure is only written with `console.error`, and `w1` is deleted. -/
theorem cascade_unlink_failure_not_surfaced :
    (cascadeWorld.unlink (pathJoin ["..", "public/uploads/waiters", "1.png"])).1
        = some "EACCES" ∧
      (deleteRestaurant (some root) "r1" cascadeWorld).2 = .redirect "/admin/restaurants" ∧
      (deleteRestaurant (some root) "r1" cascadeWorld).1.log =
        [.unlink "../public/uploads/waiters/1.png",
          .consoleError "Error deleting picture:",
          .findByIdAndDelete "Waiter" "w1",
          .unlink "../public/uploads/waiters/3.png",
          .findByIdAndDelete "Waiter" "w3",
          .findByIdAndDelete "Restaurant" "r1"] ∧
      (deleteRestaurant (some root) "r1" cascadeWorld).1.store.waiters.map (fun x => x._id)
        = ["w2"] := by
  decide

theorem deleteWaiter_released (session : Option User) (waiterId : ObjectId) (w : World)
    (waiter : Waiter) (hfind : findById Waiter._id w.store.waiters waiterId = some waiter)
    (herr : (w.unlink ("public/uploads/waiters/" ++ waiter.picture)).1 = none ∨
      (w.unlink ("public/uploads/waiters/" ++ waiter.picture)).1 = some "ENOENT") :
    deleteWaiter session waiterId w =
      ((w.unlink ("public/uploads/waiters/" ++ waiter.picture)).2.deleteWaiter waiterId,
        respond (accessGate session).reply (.redirect "/admin/waiters")) := by
  simp only [deleteWaiter, hfind]
  generalize w.unlink ("public/uploads/waiters/" ++ waiter.picture) = res at herr ⊢
  obtain ⟨err, w1⟩ := res
  rcases herr with h | h <;> simp only at h <;> subst h <;> simp

theorem deleteWaiter_failed (session : Option User) (waiterId : ObjectId) (w : World)
    (waiter : Waiter) (hfind : findById Waiter._id w.store.waiters waiterId = some waiter)
    (code : String)
    (herr : (w.unlink ("public/uploads/waiters/" ++ waiter.picture)).1 = some code)
    (hcode : code ≠ "ENOENT") :
    deleteWaiter session waiterId w =
      ((w.unlink ("public/uploads/waiters/" ++ waiter.picture)).2.consoleError
          "Error deleting picture:",
        respond (accessGate session).reply (.send 500 "Error deleting waiter's picture")) := by
  simp only [deleteWaiter, hfind]
  generalize w.unlink ("public/uploads/waiters/" ++ waiter.picture) = res at herr ⊢
  obtain ⟨err, w1⟩ := res
  simp only at herr
  subst herr
  simp [hcode]

/-- The cascade removes `../public/uploads/waiters/<picture>`, one directory
above the upload directory: when nothing is stored at that path, the files are
the ones of before, the uploaded picture included. -/
theorem cascadeWaiter_keeps_files (w : World) (waiter : Waiter)
    (hfault : w.fs.unlinkFaults.find?
      (fun f => f.1 == pathJoin ["..", "public/uploads/waiters", waiter.picture]) = none)
    (habsent : w.fs.lookup (pathJoin ["..", "public/uploads/waiters", waiter.picture]) = none) :
    (w.unlink (pathJoin ["..", "public/uploads/waiters", waiter.picture])).1 = some "ENOENT" ∧
      (cascadeWaiter w waiter).fs = w.fs := by
  simp [cascadeWaiter, WorldOf.unlink, hfault, habsent, WorldOf.deleteWaiter, WorldOf.emit]

/-- C10 (as amended). Waiter deletion, for every session: if removing the
picture fails with ENOENT the failure is swallowed and the waiter record is
deleted, and for an admin session the reply is the redirect to the waiter
list; if it fails with another code the failure is logged with
`console.error` and the store is unchanged, and for an admin session the
reply is the 500 "Error deleting waiter's picture". Restaurant deletion, for
every session, runs `cascadeWaiter` over the restaurant's waiters and deletes
the restaurant, and for an admin session it always replies with the success
redirect; for each such waiter, if removing the picture fails with ENOENT the
failure is swallowed, and if it fails with another code it is logged with
`console.error`; in both cases the waiter record is deleted. -/
theorem photo_release_errors (session : Option User) (waiterId : ObjectId) (w : World)
    (waiter : Waiter) :
    (findById Waiter._id w.store.waiters waiterId = some waiter →
      ((w.unlink ("public/uploads/waiters/" ++ waiter.picture)).1 = some "ENOENT" →
        (deleteWaiter session waiterId w).1.store.waiters
          = deleteById Waiter._id w.store.waiters waiterId ∧
        (deleteWaiter session waiterId w).1.log
          = w.log ++ [.unlink ("public/uploads/waiters/" ++ waiter.picture),
              .findByIdAndDelete "Waiter" waiterId] ∧
        (accessGate session = .Allowed →
          (deleteWaiter session waiterId w).2 = .redirect "/admin/waiters")) ∧
      (∀ code, (w.unlink ("public/uploads/waiters/" ++ waiter.picture)).1 = some code →
        code ≠ "ENOENT" →
        (deleteWaiter session waiterId w).1.store = w.store ∧
        (deleteWaiter session waiterId w).1.log
          = w.log ++ [.unlink ("public/uploads/waiters/" ++ waiter.picture),
              .consoleError "Error deleting picture:"] ∧
        (accessGate session = .Allowed →
          (deleteWaiter session waiterId w).2 = .send 500 "Error deleting waiter's picture"))) ∧
    (∀ restaurantId,
      (deleteRestaurant session restaurantId w).1 =
        ((w.store.waiters.filter (fun x => x.restaurant_id == restaurantId)).foldl
          cascadeWaiter w).deleteRestaurant restaurantId ∧
      (accessGate session = .Allowed →
        (deleteRestaurant session restaurantId w).2 = .redirect "/admin/restaurants")) ∧
    ((w.unlink (pathJoin ["..", "public/uploads/waiters", waiter.picture])).1 = some "ENOENT" →
      (cascadeWaiter w waiter).store.waiters
        = deleteById Waiter._id w.store.waiters waiter._id ∧
      (cascadeWaiter w waiter).log
        = w.log ++ [.unlink (pathJoin ["..", "public/uploads/waiters", waiter.picture]),
            .findByIdAndDelete "Waiter" waiter._id]) ∧
    (∀ code, (w.unlink (pathJoin ["..", "public/uploads/waiters", waiter.picture])).1 = some code →
      code ≠ "ENOENT" →
      (cascadeWaiter w waiter).store.waiters
        = deleteById Waiter._id w.store.waiters waiter._id ∧
      (cascadeWaiter w waiter).log
        = w.log ++ [.unlink (pathJoin ["..", "public/uploads/waiters", waiter.picture]),
            .consoleError "Error deleting picture:",
            .findByIdAndDelete "Waiter" waiter._id]) := by
  obtain ⟨hcs, hcl⟩ := cascadeWaiter_spec w waiter
  refine ⟨?_, ?_, ?_, ?_⟩
  · intro hfind
    obtain ⟨hs, hl⟩ := unlink_store_log w ("public/uploads/waiters/" ++ waiter.picture)
    constructor
    · intro herr
      rw [deleteWaiter_released session waiterId w waiter hfind (Or.inr herr)]
      refine ⟨?_, ?_, ?_⟩
      · simp [WorldOf.deleteWaiter, WorldOf.emit, hs]
      · simp [WorldOf.deleteWaiter, WorldOf.emit, hl]
      · intro hg
        simp [hg, GateOutcome.reply, respond]
    · intro code herr hcode
      rw [deleteWaiter_failed session waiterId w waiter hfind code herr hcode]
      refine ⟨?_, ?_, ?_⟩
      · simp [WorldOf.consoleError, WorldOf.emit, hs]
      · simp [WorldOf.consoleError, WorldOf.emit, hl]
      · intro hg
        simp [hg, GateOutcome.reply, respond]
  · intro restaurantId
    exact ⟨rfl, fun hg => by simp [deleteRestaurant, hg, GateOutcome.reply, respond]⟩
  · intro herr
    rw [hcl, hcs, herr]
    simp [cascadeCatchLog]
  · intro code herr hcode
    rw [hcl, hcs, herr]
    simp [cascadeCatchLog, hcode]

/-- In `cascadeWorld` the admin deletes waiter `w1`, whose picture cannot be
removed (EACCES): the reply is the 500 and `w1` stays; the admin deletes `w3`,
whose picture is absent (ENOENT): the reply is the redirect and `w3` is gone. -/
theorem photo_release_errors_witness :
    ((deleteWaiter (some root) "w1" cascadeWorld).1.store = cascadeWorld.store ∧
      (deleteWaiter (some root) "w1" cascadeWorld).1.log
        = [] ++ [.unlink ("public/uploads/waiters/" ++ "1.png"),
            .consoleError "Error deleting picture:"] ∧
      (accessGate (some root) = .Allowed →
        (deleteWaiter (some root) "w1" cascadeWorld).2
          = .send 500 "Error deleting waiter's picture")) ∧
    ((deleteWaiter (some root) "w3" cascadeWorld).1.store.waiters
        = deleteById Waiter._id cascadeWorld.store.waiters "w3" ∧
      (deleteWaiter (some root) "w3" cascadeWorld).1.log
        = [] ++ [.unlink ("public/uploads/waiters/" ++ "3.png"),
            .findByIdAndDelete "Waiter" "w3"] ∧
      (accessGate (some root) = .Allowed →
        (deleteWaiter (some root) "w3" cascadeWorld).2 = .redirect "/admin/waiters")) ∧
    (deleteWaiter (some root) "w1" cascadeWorld).2 = .send 500 "Error deleting waiter's picture" ∧
    (deleteWaiter (some root) "w3" cascadeWorld).2 = .redirect "/admin/waiters" ∧
    (deleteWaiter (some root) "w3" cascadeWorld).1.store.waiters.map (fun x => x._id)
      = ["w1", "w2"] :=
  ⟨((photo_release_errors (some root) "w1" cascadeWorld ⟨"w1", "r1", "Bob", "1.png", []⟩).1
      (by decide)).2 "EACCES" (by decide) (by decide),
    ((photo_release_errors (some root) "w3" cascadeWorld ⟨"w3", "r1", "Cy", "3.png", []⟩).1
      (by decide)).1 (by decide),
    by decide, by decide, by decide⟩

/-! ## Scores and the rating path parameter -/

theorem modifyFirst_inRange (p : RatingOf Score → Bool) (rating : Score) (now : Date)
    (hr : rating.InRange) (ratings : List (RatingOf Score)) (h : InRange ratings) :
    InRange (modifyFirst p (fun r => { r with rating := rating, date_time := now }) ratings) := by
  induction ratings with
  | nil => exact h
  | cons r rs ih =>
    have hrs : InRange rs := fun x hx => h x (List.mem_cons_of_mem r hx)
    by_cases hp : p r
    · simp only [modifyFirst, hp, if_true]
      intro x hx
      rcases List.mem_cons.mp hx with rfl | hx
      · exact hr
      · exact hrs x hx
    · simp only [modifyFirst, hp, Bool.false_eq_true, if_false]
      intro x hx
      rcases List.mem_cons.mp hx with rfl | hx
      · exact h _ (List.mem_cons_self _ _)
      · exact ih hrs x hx

theorem upsertWaiterRating_inRange (ratings : List (RatingOf Score)) (userId : ObjectId)
    (rating : Score) (now : Date) (hr : rating.InRange) (h : InRange ratings) :
    InRange (upsertWaiterRating ratings userId rating now) := by
  unfold upsertWaiterRating
  cases hf : ratings.find? (ratedBy userId) with
  | some r => exact modifyFirst_inRange (ratedBy userId) rating now hr ratings h
  | none =>
    intro x hx
    rcases List.mem_append.mp hx with hx | hx
    · exact h x hx
    · rw [List.mem_singleton.mp hx]
      exact hr

theorem rateRestaurant_inRange (session : Option User) (restaurantId : ObjectId)
    (rating : Score) (now : Date) (w : WorldOf Score) (hr : rating.InRange) (id : ObjectId)
    (target : RestaurantOf Score)
    (hfind : findById RestaurantOf._id w.store.restaurants id = some target)
    (hin : InRange target.ratings) :
    ∃ target', findById RestaurantOf._id
        (rateRestaurant session restaurantId rating now w).1.store.restaurants id = some target' ∧
      InRange target'.ratings := by
  cases session with
  | none => exact ⟨target, hfind, hin⟩
  | some user =>
    cases hf : findById RestaurantOf._id w.store.restaurants restaurantId with
    | none =>
      refine ⟨target, ?_, hin⟩
      simpa [rateRestaurant, hf, WorldOf.flash, WorldOf.emit] using hfind
    | some restaurant =>
      cases hex : restaurant.ratings.find? (ratedBy user._id) with
      | some r =>
        refine ⟨target, ?_, hin⟩
        simpa [rateRestaurant, hf, hex, WorldOf.flash, WorldOf.emit] using hfind
      | none =>
        have hkey : restaurant._id = restaurantId := findById_key RestaurantOf._id _ _ _ hf
        rw [rateRestaurant_restaurants user restaurantId rating now w restaurant hf hex]
        by_cases hid : id = restaurantId
        · subst hid
          have heq : restaurant = target := by
            rw [hf] at hfind
            exact Option.some.inj hfind
          subst heq
          refine ⟨_, findById_replaceById_same RestaurantOf._id _ _ restaurant _ hf rfl, ?_⟩
          intro x hx
          rcases List.mem_append.mp hx with hx | hx
          · exact hin x hx
          · rw [List.mem_singleton.mp hx]
            exact hr
        · refine ⟨target, ?_, hin⟩
          rw [findById_replaceById_other RestaurantOf._id _ id _ ?_]
          · exact hfind
          · intro e
            exact hid (by rw [← e, ← hkey])

theorem rateWaiter_inRange (session : Option User) (waiterId : ObjectId) (rating : Score)
    (restaurantId : ObjectId) (now : Date) (w : WorldOf Score) (hr : rating.InRange)
    (id : ObjectId) (target : WaiterOf Score)
    (hfind : findById WaiterOf._id w.store.waiters id = some target)
    (hin : InRange target.ratings) :
    ∃ target', findById WaiterOf._id
        (rateWaiter session waiterId rating restaurantId now w).1.store.waiters id = some target' ∧
      InRange target'.ratings := by
  cases session with
  | none => exact ⟨target, hfind, hin⟩
  | some user =>
    cases hf : findById WaiterOf._id w.store.waiters waiterId with
    | none =>
      refine ⟨target, ?_, hin⟩
      simpa [rateWaiter, hf] using hfind
    | some waiter =>
      have hkey : waiter._id = waiterId := findById_key WaiterOf._id _ _ _ hf
      rw [rateWaiter_waiters user waiterId rating restaurantId now w waiter hf]
      by_cases hid : id = waiterId
      · subst hid
        have heq : waiter = target := by
          rw [hf] at hfind
          exact Option.some.inj hfind
        subst heq
        exact ⟨_, findById_replaceById_same WaiterOf._id _ _ waiter _ hf rfl,
          upsertWaiterRating_inRange waiter.ratings user._id rating now hr hin⟩
      · refine ⟨target, ?_, hin⟩
        rw [findById_replaceById_other WaiterOf._id _ id _ ?_]
        · exact hfind
        · intro e
          exact hid (by rw [← e, ← hkey])

theorem rateRestaurantRoute_number (session : Option User) (restaurantId : ObjectId)
    (rating : String) (now : Date) (w : WorldOf Score) (score : Score)
    (h : parseInt10 rating = some score) :
    rateRestaurantRoute session restaurantId rating now w
      = rateRestaurant session restaurantId score now w := by
  simp [rateRestaurantRoute, h]

theorem rateRestaurantRoute_nan (session : Option User) (restaurantId : ObjectId)
    (rating : String) (now : Date) (w : WorldOf Score) (h : parseInt10 rating = none) :
    (rateRestaurantRoute session restaurantId rating now w).1.store = w.store := by
  cases session with
  | none => simp [rateRestaurantRoute, h]
  | some user =>
    cases hf : findById RestaurantOf._id w.store.restaurants restaurantId with
    | none => simp [rateRestaurantRoute, h, hf, WorldOf.flash, WorldOf.emit]
    | some restaurant =>
      cases hex : restaurant.ratings.find? (ratedBy user._id) <;>
        simp [rateRestaurantRoute, h, hf, hex, WorldOf.flash, WorldOf.consoleError, WorldOf.emit]

theorem rateWaiterRoute_number (session : Option User) (waiterId : ObjectId) (rating : String)
    (restaurantId : ObjectId) (now : Date) (w : WorldOf Score) (score : Score)
    (h : numberCast rating = some score) :
    rateWaiterRoute session waiterId rating restaurantId now w
      = rateWaiter session waiterId score restaurantId now w := by
  simp [rateWaiterRoute, h]

theorem rateWaiterRoute_nan (session : Option User) (waiterId : ObjectId) (rating : String)
    (restaurantId : ObjectId) (now : Date) (w : WorldOf Score) (h : numberCast rating = none) :
    (rateWaiterRoute session waiterId rating restaurantId now w).1.store = w.store := by
  cases session with
  | none => simp [rateWaiterRoute, h]
  | some user =>
    cases hf : findById WaiterOf._id w.store.waiters waiterId <;>
      simp [rateWaiterRoute, h, hf, WorldOf.consoleError, WorldOf.emit]

/-- What the two routes read from sample parameters: whole numbers and
fractions, the longest digit prefix for `parseInt` against the whole text for
`Number`, other radices, and the rounding of the value to a double (the
nearest double of 2^53 + 1 is 2^53, a value from 2^1024 on is an infinity, a
value below half of 2^-1074 is 0). -/
theorem reading_samples :
    parseInt10 "90" = some (.finite 90) ∧ numberCast "90" = some (.finite 90) ∧
      parseInt10 " -5" = some (.finite (-5)) ∧ numberCast "-5" = some (.finite (-5)) ∧
      parseInt10 "1.5" = some (.finite 1) ∧ numberCast "1.5" = some (.finite (3 / 2)) ∧
      parseInt10 "12abc" = some (.finite 12) ∧ numberCast "12abc" = none ∧
      parseInt10 "0x1F" = some (.finite 0) ∧ numberCast "0x1F" = some (.finite 31) ∧
      parseInt10 "abc" = none ∧ numberCast "abc" = none ∧
      parseInt10 "" = none ∧ numberCast "" = some .null ∧
      parseInt10 "Infinity" = none ∧ numberCast "-Infinity" = some .negInf ∧
      parseInt10 "9007199254740993" = some (.finite 9007199254740992) ∧
      numberCast "9007199254740993" = some (.finite 9007199254740992) ∧
      parseInt10 "1e400" = some (.finite 1) ∧ numberCast "1e400" = some .posInf ∧
      numberCast "1e-400" = some (.finite 0) ∧
      numberCast "0.1" = some (.finite (3602879701896397 / 36028797018963968)) := by
  decide!

/-- C11 (as stated) fails: neither route compares the number with a bound.
In `scoreWorld` the restaurant `r1` holds the scores 80 and 75 and the waiter
`w1` holds none; the rate-restaurant call of `root` with the path parameter
"150" stores the score 150 in `r1`, the rate-waiter call of `ann` with the
path parameter "-5" stores the score -5 in `w1`, and with the path parameter
"1e400" it stores the score Infinity. -/
theorem rating_out_of_range_stored :
    findById RestaurantOf._id scoreWorld.store.restaurants "r1"
        = some ⟨"r1", "Bistro A", [⟨.finite 80, "u1", 1⟩, ⟨.finite 75, "u2", 2⟩], "qr_r1.png"⟩ ∧
      InRange [⟨.finite 80, "u1", 1⟩, ⟨.finite 75, "u2", 2⟩] ∧
      findById RestaurantOf._id
          (rateRestaurantRoute (some root) "r1" "150" 9 scoreWorld).1.store.restaurants "r1"
        = some ⟨"r1", "Bistro A",
            [⟨.finite 80, "u1", 1⟩, ⟨.finite 75, "u2", 2⟩, ⟨.finite 150, "a1", 9⟩],
            "qr_r1.png"⟩ ∧
      ¬ InRange [⟨.finite 80, "u1", 1⟩, ⟨.finite 75, "u2", 2⟩, ⟨.finite 150, "a1", 9⟩] ∧
      findById WaiterOf._id scoreWorld.store.waiters "w1"
        = some ⟨"w1", "r1", "Bob", "1.png", []⟩ ∧
      InRange [] ∧
      findById WaiterOf._id
          (rateWaiterRoute (some ann) "w1" "-5" "r1" 9 scoreWorld).1.store.waiters "w1"
        = some ⟨"w1", "r1", "Bob", "1.png", [⟨.finite (-5), "u1", 9⟩]⟩ ∧
      ¬ InRange [⟨.finite (-5), "u1", 9⟩] ∧
      findById WaiterOf._id
          (rateWaiterRoute (some ann) "w1" "1e400" "r1" 9 scoreWorld).1.store.waiters "w1"
        = some ⟨"w1", "r1", "Bob", "1.png", [⟨.posInf, "u1", 9⟩]⟩ ∧
      ¬ InRange [⟨.posInf, "u1", 9⟩] := by
  decide!

/-- C11 (as amended). With the path parameter as text, for every text: the
restaurant route stores the number `parseInt(rating, 10)` reads and the waiter
route the number the schema cast reads, whatever its size (for a user who is
logged in and has not rated the restaurant, the record with that number is
appended to the restaurant; for a user who is logged in, the waiter's sequence
is upserted with that number); a parameter that is not a number (NaN) leaves
the store unchanged; a rate-restaurant call changes no waiter and a
rate-waiter call no restaurant. Hence a target of the store whose records all
have a score in [0,100] is still in the store, with all its scores in [0,100],
after any rate-restaurant or rate-waiter call whose parameter is not a number
or reads as a number in [0,100]. -/
theorem rating_param_in_range (session : Option User) (pathId restaurantId : ObjectId)
    (rating : String) (now : Date) (w : WorldOf Score) (id : ObjectId) :
    (∀ score, parseInt10 rating = some score →
      rateRestaurantRoute session pathId rating now w
        = rateRestaurant session pathId score now w) ∧
    (∀ score user restaurant, parseInt10 rating = some score → session = some user →
      findById RestaurantOf._id w.store.restaurants pathId = some restaurant →
      restaurant.ratings.find? (ratedBy user._id) = none →
      findById RestaurantOf._id
          (rateRestaurantRoute session pathId rating now w).1.store.restaurants pathId
        = some { restaurant with
            ratings := restaurant.ratings ++ [⟨score, user._id, now⟩] }) ∧
    (parseInt10 rating = none →
      (rateRestaurantRoute session pathId rating now w).1.store = w.store) ∧
    (rateRestaurantRoute session pathId rating now w).1.store.waiters = w.store.waiters ∧
    (∀ target, findById RestaurantOf._id w.store.restaurants id = some target →
      InRange target.ratings →
      (parseInt10 rating = none ∨ ∃ score, parseInt10 rating = some score ∧ score.InRange) →
      ∃ target', findById RestaurantOf._id
          (rateRestaurantRoute session pathId rating now w).1.store.restaurants id
          = some target' ∧
        InRange target'.ratings) ∧
    (∀ score, numberCast rating = some score →
      rateWaiterRoute session pathId rating restaurantId now w
        = rateWaiter session pathId score restaurantId now w) ∧
    (∀ score user waiter, numberCast rating = some score → session = some user →
      findById WaiterOf._id w.store.waiters pathId = some waiter →
      findById WaiterOf._id
          (rateWaiterRoute session pathId rating restaurantId now w).1.store.waiters pathId
        = some { waiter with
            ratings := upsertWaiterRating waiter.ratings user._id score now }) ∧
    (numberCast rating = none →
      (rateWaiterRoute session pathId rating restaurantId now w).1.store = w.store) ∧
    (rateWaiterRoute session pathId rating restaurantId now w).1.store.restaurants
      = w.store.restaurants ∧
    (∀ target, findById WaiterOf._id w.store.waiters id = some target →
      InRange target.ratings →
      (numberCast rating = none ∨ ∃ score, numberCast rating = some score ∧ score.InRange) →
      ∃ target', findById WaiterOf._id
          (rateWaiterRoute session pathId rating restaurantId now w).1.store.waiters id
          = some target' ∧
        InRange target'.ratings) := by
  refine ⟨fun score h => rateRestaurantRoute_number session pathId rating now w score h, ?_,
    fun h => rateRestaurantRoute_nan session pathId rating now w h, ?_, ?_,
    fun score h => rateWaiterRoute_number session pathId rating restaurantId now w score h, ?_,
    fun h => rateWaiterRoute_nan session pathId rating restaurantId now w h, ?_, ?_⟩
  · intro score user restaurant hp hs hf hr
    subst hs
    rw [rateRestaurantRoute_number (some user) pathId rating now w score hp,
      rateRestaurant_restaurants user pathId score now w restaurant hf hr]
    exact findById_replaceById_same RestaurantOf._id _ _ restaurant _ hf rfl
  · cases hp : parseInt10 rating with
    | none => rw [rateRestaurantRoute_nan session pathId rating now w hp]
    | some score =>
      rw [rateRestaurantRoute_number session pathId rating now w score hp]
      exact rateRestaurant_waiters session pathId score now w
  · intro target hfind hin hparam
    rcases hparam with hp | ⟨score, hp, hn⟩
    · rw [rateRestaurantRoute_nan session pathId rating now w hp]
      exact ⟨target, hfind, hin⟩
    · rw [rateRestaurantRoute_number session pathId rating now w score hp]
      exact rateRestaurant_inRange session pathId score now w hn id target hfind hin
  · intro score user waiter hc hs hf
    subst hs
    rw [rateWaiterRoute_number (some user) pathId rating restaurantId now w score hc,
      rateWaiter_waiters user pathId score restaurantId now w waiter hf]
    exact findById_replaceById_same WaiterOf._id _ _ waiter _ hf rfl
  · cases hc : numberCast rating with
    | none => rw [rateWaiterRoute_nan session pathId rating restaurantId now w hc]
    | some score =>
      rw [rateWaiterRoute_number session pathId rating restaurantId now w score hc]
      exact rateWaiter_restaurants session pathId score restaurantId now w
  · intro target hfind hin hparam
    rcases hparam with hc | ⟨score, hc, hn⟩
    · rw [rateWaiterRoute_nan session pathId rating restaurantId now w hc]
      exact ⟨target, hfind, hin⟩
    · rw [rateWaiterRoute_number session pathId rating restaurantId now w score hc]
      exact rateWaiter_inRange session pathId score restaurantId now w hn id target hfind hin

/-- In `scoreWorld`: the parameter "90" of `root` for `r1` and the parameter
"1.5" of `ann` for `w2` keep the scores in [0,100], and 1.5 is what `w2` then
holds for `ann`; the parameter "abc" is not a number for either route and the
store stays as it was. -/
theorem rating_param_in_range_witness :
    (∃ target', findById RestaurantOf._id
        (rateRestaurantRoute (some root) "r1" "90" 9 scoreWorld).1.store.restaurants "r1"
        = some target' ∧ InRange target'.ratings) ∧
    (∃ target', findById WaiterOf._id
        (rateWaiterRoute (some ann) "w2" "1.5" "r1" 9 scoreWorld).1.store.waiters "w2"
        = some target' ∧ InRange target'.ratings) ∧
    (rateRestaurantRoute (some root) "r1" "abc" 9 scoreWorld).1.store = scoreWorld.store ∧
    (rateWaiterRoute (some ann) "w2" "abc" "r1" 9 scoreWorld).1.store = scoreWorld.store ∧
    findById RestaurantOf._id
        (rateRestaurantRoute (some root) "r1" "90" 9 scoreWorld).1.store.restaurants "r1"
      = some ⟨"r1", "Bistro A",
          [⟨.finite 80, "u1", 1⟩, ⟨.finite 75, "u2", 2⟩, ⟨.finite 90, "a1", 9⟩], "qr_r1.png"⟩ ∧
    findById WaiterOf._id
        (rateWaiterRoute (some ann) "w2" "1.5" "r1" 9 scoreWorld).1.store.waiters "w2"
      = some ⟨"w2", "r1", "Cy", "2.png",
          [⟨.finite (3 / 2), "u1", 9⟩, ⟨.finite 90, "u2", 4⟩, ⟨.finite 60, "u3", 5⟩]⟩ :=
  ⟨(rating_param_in_range (some root) "r1" "r1" "90" 9 scoreWorld "r1").2.2.2.2.1
      ⟨"r1", "Bistro A", [⟨.finite 80, "u1", 1⟩, ⟨.finite 75, "u2", 2⟩], "qr_r1.png"⟩
      (by decide!) (by decide!) (Or.inr ⟨.finite 90, by decide!, by decide!⟩),
    (rating_param_in_range (some ann) "w2" "r1" "1.5" 9 scoreWorld "w2").2.2.2.2.2.2.2.2.2
      ⟨"w2", "r1", "Cy", "2.png",
        [⟨.finite 70, "u1", 3⟩, ⟨.finite 90, "u2", 4⟩, ⟨.finite 60, "u3", 5⟩]⟩
      (by decide!) (by decide!) (Or.inr ⟨.finite (3 / 2), by decide!, by decide!⟩),
    (rating_param_in_range (some root) "r1" "r1" "abc" 9 scoreWorld "r1").2.2.1 (by decide!),
    (rating_param_in_range (some ann) "w2" "r1" "abc" 9 scoreWorld "w2").2.2.2.2.2.2.2.1
      (by decide!),
    by decide!, by decide!⟩

end MrcSurvey
